import Mathlib

/-!
Verification of the event/booking validation and normalization pipeline of the
dev-events application (event model, booking model, events API route, and the
cached database connection helper).

JavaScript strings are modelled as lists of Unicode code points (`List Nat`);
`str` converts a Lean string literal to this representation.  Fallible
operations return `Except VError _` where `VError` is the error taxonomy of
the specification (MissingField, InvalidItem, InvalidDate, InvalidTime,
InvalidEmail, DanglingReference).
-/

set_option maxRecDepth 4000

/-- Convert a Lean string literal to the code-point list model of JS strings. -/
def str (s : String) : List Nat := s.data.map Char.toNat

/-- The JS whitespace class: the code points removed by `String.prototype.trim`
and matched by the regex class `\s` (WhiteSpace and LineTerminator). -/
def isJsWs (n : Nat) : Bool :=
  n == 9 || n == 10 || n == 11 || n == 12 || n == 13 || n == 32 ||
  n == 0xa0 || n == 0x1680 || (0x2000 ≤ n && n ≤ 0x200a) ||
  n == 0x2028 || n == 0x2029 || n == 0x202f || n == 0x205f ||
  n == 0x3000 || n == 0xfeff

/-- Code points matched by the regex class `[a-z0-9]`. -/
def isSlugChar (n : Nat) : Bool :=
  (97 ≤ n && n ≤ 122) || (48 ≤ n && n ≤ 57)

/-- ASCII alphanumeric code points (`[a-zA-Z0-9]`). -/
def isAsciiAlnum (n : Nat) : Bool :=
  (65 ≤ n && n ≤ 90) || (97 ≤ n && n ≤ 122) || (48 ≤ n && n ≤ 57)

/-- Code points matched by the regex class `\d`. -/
def isDigitCode (n : Nat) : Bool := 48 ≤ n && n ≤ 57

/-- Model of `String.prototype.toLowerCase` on the ASCII range: map `A`-`Z` to
`a`-`z` and leave every other code point unchanged. -/
def toLowerJs (n : Nat) : Nat := if 65 ≤ n && n ≤ 90 then n + 32 else n

/-- Remove the maximal run of `p`-code-points at both ends of a list.  With
`p := isJsWs` this is `String.prototype.trim`; with `p := (· == 45)` it is
the `replace(/^-+|-+$/g, "")` step of `slugify`. -/
def trimBy (p : Nat → Bool) (s : List Nat) : List Nat :=
  ((s.dropWhile p).reverse.dropWhile p).reverse

/-- Model of `String.prototype.trim`. -/
def jsTrim : List Nat → List Nat := trimBy isJsWs

/-- The `replace(/[^a-z0-9]+/g, "-")` step of `slugify`: each maximal run of
code points outside `[a-z0-9]` becomes a single hyphen (code 45).  The flag
records whether the previous position was inside such a run. -/
def collapseRuns : List Nat → Bool → List Nat
  | [], _ => []
  | c :: rest, inRun =>
    if isSlugChar c then c :: collapseRuns rest false
    else if inRun then collapseRuns rest true
    else 45 :: collapseRuns rest true

/-- The `replace(/^-+|-+$/g, "")` step of `slugify`. -/
def stripHyphens : List Nat → List Nat := trimBy (· == 45)

/-- The `slugify` helper from the event model: lowercase, trim, collapse runs of
non-`[a-z0-9]` code points to single hyphens, strip edge hyphens. -/
def slugify (title : List Nat) : List Nat :=
  stripHyphens (collapseRuns (jsTrim (title.map toLowerJs)) false)

/-- The slug computation exactly as the specification words it: the title
lowercased, every maximal run of characters outside `[a-z0-9]` collapsed to a
single hyphen, then leading/trailing hyphens stripped (no trim step). -/
def slugifySpec (title : List Nat) : List Nat :=
  stripHyphens (collapseRuns (title.map toLowerJs) false)

/-- The validation error taxonomy of the specification. -/
inductive VError where
  | MissingField (name : List Nat)
  | InvalidItem (name : List Nat)
  | InvalidDate
  | InvalidTime
  | InvalidEmail
  | DanglingReference
deriving DecidableEq, Repr

/-! ## Calendar arithmetic (UTC calendar date of an epoch-milliseconds value)

`normalizeDate` calls the host `Date` parser and `toISOString().slice(0, 10)`.
Modelled from the spec: the host parse result is passed in as an
`Option Int` of epoch milliseconds (`none` when the string is unparseable),
and the emitted text is the UTC calendar-date portion in `YYYY-MM-DD` form,
computed here by proleptic-Gregorian calendar arithmetic. -/

/-- Proleptic Gregorian leap-year rule (as used by UTC calendar dates). -/
def isLeap (y : Int) : Bool := (y % 4 == 0 && y % 100 != 0) || (y % 400 == 0)

/-- Length of month `m` (1-12), depending on leapness of the year. -/
def monthLength (leap : Bool) (m : Nat) : Nat :=
  match m with
  | 1 => 31 | 2 => if leap then 29 else 28 | 3 => 31 | 4 => 30 | 5 => 31
  | 6 => 30 | 7 => 31 | 8 => 31 | 9 => 30 | 10 => 31 | 11 => 30 | 12 => 31
  | _ => 0

/-- Days in months `1..m` of a year. -/
def monthDaysBefore (leap : Bool) : Nat → Nat
  | 0 => 0
  | m + 1 => monthDaysBefore leap m + monthLength leap (m + 1)

/-- Length of year-of-era `yoe` where eras are the 400-year cycles starting
at 1970 (`1970 + 400k + yoe` has the same leapness as `1970 + yoe`). -/
def lenYoe (yoe : Nat) : Nat := if isLeap (1970 + (yoe : Int)) then 366 else 365

/-- Days in years-of-era `0..yoe-1` of an era. -/
def yearDaysBefore : Nat → Nat
  | 0 => 0
  | n + 1 => yearDaysBefore n + lenYoe n

/-- Split a day-of-era into (year-of-era, day-of-year) by peeling off whole
years; `fuel` bounds the iteration (399 suffices for a 146097-day era). -/
def splitYear : Nat → Nat → Nat → Nat × Nat
  | 0, yoe, rem => (yoe, rem)
  | fuel + 1, yoe, rem =>
    if rem < lenYoe yoe then (yoe, rem)
    else splitYear fuel (yoe + 1) (rem - lenYoe yoe)

/-- Split a day-of-year into (month, day-of-month minus 1) by peeling off
whole months starting at month `m`; `fuel := 11` suffices. -/
def splitMonth : Nat → Bool → Nat → Nat → Nat × Nat
  | 0, _, m, rem => (m, rem)
  | fuel + 1, leap, m, rem =>
    if rem < monthLength leap m then (m, rem)
    else splitMonth fuel leap (m + 1) (rem - monthLength leap m)

/-- UTC calendar date (year, month, day) of a day count relative to
1970-01-01 (day 0). -/
def civilFromDays (z : Int) : Int × Nat × Nat :=
  let era : Int := z / 146097
  let doe : Nat := (z % 146097).toNat
  let p := splitYear 399 0 doe
  let y : Int := 1970 + era * 400 + (p.1 : Int)
  let q := splitMonth 11 (isLeap y) 1 p.2
  (y, q.1, q.2 + 1)

/-- Day count relative to 1970-01-01 of a calendar date (year, month, day).
This is the independent specification of the UTC calendar date: summation of
era, year and month lengths. -/
def daysFromCivil (y : Int) (m d : Nat) : Int :=
  let yr : Int := y - 1970
  let era : Int := yr / 400
  let yoe : Nat := (yr % 400).toNat
  era * 146097 + (yearDaysBefore yoe : Int) +
    (monthDaysBefore (isLeap y) (m - 1) : Int) + ((d : Int) - 1)

/-- Decimal digit code point for `n < 10`. -/
def digitCode (n : Nat) : Nat := 48 + n

/-- Zero-padded two-digit decimal rendering (code points). -/
def pad2 (n : Nat) : List Nat := [digitCode (n / 10 % 10), digitCode (n % 10)]

/-- Zero-padded four-digit decimal rendering (code points). -/
def pad4 (n : Nat) : List Nat :=
  [digitCode (n / 1000 % 10), digitCode (n / 100 % 10),
   digitCode (n / 10 % 10), digitCode (n % 10)]

/-- Rendering of a calendar date as `YYYY-MM-DD` (45 is the hyphen). -/
def formatDate (y : Int) (m d : Nat) : List Nat :=
  pad4 y.toNat ++ 45 :: (pad2 m ++ 45 :: pad2 d)

/-- Decidable test for the shape `^\d{4}-\d{2}-\d{2}$`. -/
def matchesDateShape : List Nat → Bool
  | [a, b, c, d, h1, e, f, h2, g, k] =>
    isDigitCode a && isDigitCode b && isDigitCode c && isDigitCode d &&
    h1 == 45 && isDigitCode e && isDigitCode f && h2 == 45 &&
    isDigitCode g && isDigitCode k
  | _ => false

/-- The UTC calendar-date portion of `toISOString()` of an epoch-milliseconds
value (its first ten characters, `YYYY-MM-DD`). -/
def isoDateOfMillis (ms : Int) : List Nat :=
  let c := civilFromDays (ms / 86400000)
  formatDate c.1 c.2.1 c.2.2

/-- The `normalizeDate` helper from the event model.  The argument is the host `Date`
parse outcome for the input string: `none` when `getTime()` is NaN (the
string is unparseable), otherwise the epoch milliseconds. -/
def normalizeDate (parsed : Option Int) : Except VError (List Nat) :=
  match parsed with
  | none => .error .InvalidDate
  | some ms => .ok (isoDateOfMillis ms)

/-! ## Time normalization -/

/-- Match of the regex `^([0-1]?\d|2[0-3]):([0-5]\d)$` against a code-point
list, returning the two capture groups (hour digits, minute digits).  A match
can only have length 4 (`H:mm`) or 5 (`HH:mm`); 58 is the colon. -/
def timeMatch : List Nat → Option (List Nat × List Nat)
  | [h1, c, m1, m2] =>
    if isDigitCode h1 && c == 58 && (48 ≤ m1 && m1 ≤ 53) && isDigitCode m2 then
      some ([h1], [m1, m2])
    else none
  | [h1, h2, c, m1, m2] =>
    if ((48 ≤ h1 && h1 ≤ 49) && isDigitCode h2 || h1 == 50 && (48 ≤ h2 && h2 ≤ 51)) &&
        c == 58 && (48 ≤ m1 && m1 ≤ 53) && isDigitCode m2 then
      some ([h1, h2], [m1, m2])
    else none
  | _ => none

/-- Model of `String.prototype.padStart(2, "0")`. -/
def padStart2 (l : List Nat) : List Nat := List.replicate (2 - l.length) 48 ++ l

/-- The `normalizeTime` helper from the event model: trim, match the 24-hour regex
(failing with `InvalidTime` otherwise), pad the hour to two digits and
rejoin with a colon. -/
def normalizeTime (value : List Nat) : Except VError (List Nat) :=
  let trimmed := jsTrim value
  match timeMatch trimmed with
  | none => .error .InvalidTime
  | some g => .ok (padStart2 g.1 ++ 58 :: g.2)

/-- The acceptance set as the claim words it: strings of shape `H:mm` or
`HH:mm` whose hour value is 0-23 and whose two minute digits read 00-59. -/
def isTimeShape : List Nat → Bool
  | [h1, c, m1, m2] =>
    isDigitCode h1 && c == 58 && isDigitCode m1 && isDigitCode m2 &&
    (10 * (m1 - 48) + (m2 - 48) ≤ 59)
  | [h1, h2, c, m1, m2] =>
    isDigitCode h1 && isDigitCode h2 && (10 * (h1 - 48) + (h2 - 48) ≤ 23) &&
    c == 58 && isDigitCode m1 && isDigitCode m2 &&
    (10 * (m1 - 48) + (m2 - 48) ≤ 59)
  | _ => false

/-- Decimal rendering `"h:mm"` of an hour (unpadded) and minutes (2-digit). -/
def renderTime (h m : Nat) : List Nat :=
  (if h < 10 then [digitCode h] else [digitCode (h / 10 % 10), digitCode (h % 10)]) ++
    58 :: pad2 m

/-- Decimal rendering `"hh:mm"` with the hour zero-padded to two digits. -/
def renderTimePadded (h m : Nat) : List Nat := pad2 h ++ 58 :: pad2 m

/-! ## Event documents and the event pre-save hook -/

/-- A JS value as far as the validators inspect one: a string, an array, the
absent value (`undefined`), or any other non-string non-array value. -/
inductive JsVal where
  | jstr (s : List Nat)
  | jarr (elems : List JsVal)
  | jundef
  | jother

/-- The event document fields touched by the pre-save hook. -/
structure EventDoc where
  title : JsVal
  description : JsVal
  overview : JsVal
  image : JsVal
  venue : JsVal
  location : JsVal
  date : JsVal
  time : JsVal
  mode : JsVal
  audience : JsVal
  organizer : JsVal
  agenda : JsVal
  tags : JsVal
  slug : JsVal

/-- The `isModified` flags the hook consults for this write. -/
structure ModifiedFlags where
  title : Bool
  date : Bool
  time : Bool
deriving DecidableEq

/-- The failing condition of the scalar-field check:
`typeof value !== "string" || value.trim().length === 0`. -/
def badString (v : JsVal) : Bool :=
  match v with
  | .jstr s => (jsTrim s).isEmpty
  | _ => true

/-- The `requiredStringFields` list of the event hook, in source order,
paired with the field accessors. -/
def requiredStringFields : List (List Nat × (EventDoc → JsVal)) :=
  [(str "title", EventDoc.title), (str "description", EventDoc.description),
   (str "overview", EventDoc.overview), (str "image", EventDoc.image),
   (str "venue", EventDoc.venue), (str "location", EventDoc.location),
   (str "date", EventDoc.date), (str "time", EventDoc.time),
   (str "mode", EventDoc.mode), (str "audience", EventDoc.audience),
   (str "organizer", EventDoc.organizer)]

/-- The `for (const field of requiredStringFields)` loop of the hook. -/
def checkStringFields (e : EventDoc) : List (List Nat × (EventDoc → JsVal)) → Except VError Unit
  | [] => .ok ()
  | (name, get) :: rest =>
    if badString (get e) then .error (.MissingField name)
    else checkStringFields e rest

/-- The per-item condition of the array check:
`typeof item === "string" && item.trim().length > 0`. -/
def goodItem (v : JsVal) : Bool :=
  match v with
  | .jstr s => !(jsTrim s).isEmpty
  | _ => false

/-- The array-field check of the hook: `MissingField` when the value is not
an array or is empty, `InvalidItem` when some element is not a
non-empty-after-trim string. -/
def checkArrayField (name : List Nat) (v : JsVal) : Except VError Unit :=
  match v with
  | .jarr elems =>
    if elems.isEmpty then .error (.MissingField name)
    else if elems.all goodItem then .ok ()
    else .error (.InvalidItem name)
  | _ => .error (.MissingField name)

/-- The failing condition of the array-shape check:
`!Array.isArray(value) || value.length === 0`. -/
def badArrayShape (v : JsVal) : Bool :=
  match v with
  | .jarr elems => elems.isEmpty
  | _ => true

/-- Whether some element of an array value fails the per-item condition. -/
def hasBadItem (v : JsVal) : Bool :=
  match v with
  | .jarr elems => !elems.all goodItem
  | _ => false

/-- Read a JS value as a string (the hook only does so after the scalar
checks guarantee the value is a string). -/
def asString (v : JsVal) : List Nat :=
  match v with
  | .jstr s => s
  | _ => []

namespace EventModel

/-- The event `preSave` hook: scalar checks, array checks, then slug
generation and date/time normalization guarded by the `isModified` flags; a
thrown error anywhere aborts the write (`Except` propagation).  `parseDate`
is the host `Date` parser (modelled from the spec as a function from the
string to an optional epoch-milliseconds value). -/
def preSave (e : EventDoc) (modified : ModifiedFlags)
    (parseDate : List Nat → Option Int) : Except VError EventDoc :=
  match checkStringFields e requiredStringFields with
  | .error err => .error err
  | .ok _ =>
  match checkArrayField (str "agenda") e.agenda with
  | .error err => .error err
  | .ok _ =>
  match checkArrayField (str "tags") e.tags with
  | .error err => .error err
  | .ok _ =>
  let e1 := if modified.title then { e with slug := .jstr (slugify (asString e.title)) } else e
  match (if modified.date then
      match normalizeDate (parseDate (asString e1.date)) with
      | .error err => .error err
      | .ok d => .ok { e1 with date := .jstr d }
    else .ok e1 : Except VError EventDoc) with
  | .error err => .error err
  | .ok e2 =>
  match (if modified.time then
      match normalizeTime (asString e2.time) with
      | .error err => .error err
      | .ok t => .ok { e2 with time := .jstr t }
    else .ok e2 : Except VError EventDoc) with
  | .error err => .error err
  | .ok e3 => .ok e3

end EventModel

/-! ## Booking documents and the booking pre-save hook -/

/-- The regex class `[^\s@]` of the email pattern (64 is the at sign). -/
def emailClassChar (n : Nat) : Bool := !(isJsWs n || n == 64)

/-- Decidable test of `EMAIL_REGEX = /^[^\s@]+@[^\s@]+\.[^\s@]+$/`: the part
before the first at sign is the `[^\s@]+` prefix; the remainder must be all
class characters and contain a dot (46) that is neither its first nor its
last character. -/
def emailMatch (s : List Nat) : Bool :=
  let a := s.takeWhile (fun c => c != 64)
  match s.drop a.length with
  | c :: r =>
    c == 64 && !a.isEmpty && a.all emailClassChar && r.all emailClassChar &&
      (r.drop 1).dropLast.contains 46
  | [] => false

/-- The email pattern as the claim words it: one-or-more
non-whitespace-non-at characters, an at sign, one-or-more of the same,
a dot, one-or-more of the same. -/
def EmailShape (s : List Nat) : Prop :=
  ∃ a b c : List Nat,
    s = a ++ 64 :: (b ++ 46 :: c) ∧ a ≠ [] ∧ b ≠ [] ∧ c ≠ [] ∧
    (∀ x ∈ a, emailClassChar x = true) ∧ (∀ x ∈ b, emailClassChar x = true) ∧
    (∀ x ∈ c, emailClassChar x = true)

namespace BookingModel

/-- The booking pre-save pipeline for the `email` path.  Modelled from the
spec for the parts outside the repository: the schema-level `required`/type
validation (absent or non-string email fails as `MissingField("email")`) and
the schema `lowercase`/`trim` setters; the hook body (trim, emptiness check,
regex check, existence check against the Event collection, in that order) is
from the source.  `eventExists` is the outcome of the
`Event.exists({ _id: eventId })` lookup. -/
def preSave (email : JsVal) (eventExists : Bool) : Except VError (List Nat) :=
  match email with
  | .jstr s =>
    let stored := jsTrim (s.map toLowerJs)
    let trimmed := jsTrim stored
    if trimmed.isEmpty then .error (.MissingField (str "email"))
    else if !emailMatch trimmed then .error .InvalidEmail
    else if !eventExists then .error .DanglingReference
    else .ok trimmed
  | _ => .error (.MissingField (str "email"))

end BookingModel

/-! ## The Create Event route handler -/

/-- The response bodies the POST handler can produce. -/
inductive PostResponse where
  | createdOk (ev : EventDoc)
  | imageRequired
  | invalidPayload
  | creationFailed

/-- The host-environment outcomes a single POST request can encounter:
whether `connectToDatabase()` resolves, whether `req.formData()` parses,
the `image` form part, the upload outcome, the parsed entries as an event
document, the modification flags of the fresh document, and the host date
parser. -/
structure PostEnv where
  connectOk : Bool
  formDataOk : Bool
  imagePart : Option (List Nat)
  uploadResult : Except Unit (List Nat)
  doc : EventDoc
  flags : ModifiedFlags
  parseDate : List Nat → Option Int

/-- The POST route handler of `app/api/events/route.ts` as a function from
the request environment to (status code, response).  `Object.fromEntries`
never throws on a `FormData` iterator, so the inner catch that would return
400 `invalidPayload` is unreachable; a payload that `req.formData()` cannot
parse raises in the outer try and is answered by the outer catch with 500. -/
def POST (env : PostEnv) : Nat × PostResponse :=
  if !env.connectOk then (500, .creationFailed)
  else if !env.formDataOk then (500, .creationFailed)
  else
    match env.imagePart with
    | none => (400, .imageRequired)
    | some _ =>
      match env.uploadResult with
      | .error _ => (500, .creationFailed)
      | .ok url =>
        match EventModel.preSave { env.doc with image := .jstr url } env.flags env.parseDate with
        | .error _ => (500, .creationFailed)
        | .ok ev => (201, .createdOk ev)

/-! ## The cached database connection -/

/-- Where a caller of `connectToDatabase` stands: not yet entered its first
synchronous segment, suspended on `await cached.promise`, or returned with a
connection handle. -/
inductive CallerPhase where
  | start
  | awaiting
  | finished (handle : Nat)
deriving DecidableEq

/-- Process-wide state: the `cached` record (`conn`, whether `promise` is
set, and the value the promise has resolved to, if any), the number of
`mongoose.connect` invocations so far, and the phase of every caller. -/
structure DBState (I : Type) where
  conn : Option Nat
  promiseCreated : Bool
  promiseResolved : Option Nat
  connectCalls : Nat
  callers : I → CallerPhase

/-- The initial process state: nothing cached, no caller started. -/
def initDBState (I : Type) : DBState I :=
  { conn := none, promiseCreated := false, promiseResolved := none,
    connectCalls := 0, callers := fun _ => .start }

/-- Interleaving semantics of `connectToDatabase`.  JS runs each synchronous
segment to completion, so the whole entry segment of a caller (check
`cached.conn`, check and possibly set `cached.promise`, invoke
`mongoose.connect`) is one atomic step; the other steps are the promise
resolving and a suspended caller resuming after `await cached.promise`. -/
inductive DBStep {I : Type} [DecidableEq I] : DBState I → DBState I → Prop
  | firstCall (s : DBState I) (i : I) :
      s.callers i = .start → s.conn = none → s.promiseCreated = false →
      DBStep s { s with promiseCreated := true, connectCalls := s.connectCalls + 1,
                        callers := Function.update s.callers i .awaiting }
  | joinPending (s : DBState I) (i : I) :
      s.callers i = .start → s.conn = none → s.promiseCreated = true →
      DBStep s { s with callers := Function.update s.callers i .awaiting }
  | reuseConn (s : DBState I) (i : I) (c : Nat) :
      s.callers i = .start → s.conn = some c →
      DBStep s { s with callers := Function.update s.callers i (.finished c) }
  | resolve (s : DBState I) (h : Nat) :
      s.promiseCreated = true → s.promiseResolved = none →
      DBStep s { s with promiseResolved := some h }
  | wake (s : DBState I) (i : I) (h : Nat) :
      s.callers i = .awaiting → s.promiseResolved = some h →
      DBStep s { s with conn := some h,
                        callers := Function.update s.callers i (.finished h) }

/-- Reachability from the initial state by interleaved steps. -/
def ReachableDB {I : Type} [DecidableEq I] (s : DBState I) : Prop :=
  Relation.ReflTransGen DBStep (initDBState I) s

/-- Invariant of the connection state machine: `mongoose.connect` has been
invoked exactly once if the promise cell is set and never otherwise; before
the promise exists nothing has resolved, no connection is cached, and every
caller is still at the start; before resolution no caller has finished and
no connection is cached; after resolution to `h` the cache is empty or
holds `h` and every finished caller got `h`. -/
def DBInv {I : Type} (s : DBState I) : Prop :=
  s.connectCalls = (if s.promiseCreated then 1 else 0) ∧
  (s.promiseCreated = false →
    s.promiseResolved = none ∧ s.conn = none ∧ ∀ i, s.callers i = .start) ∧
  (s.promiseResolved = none →
    s.conn = none ∧ ∀ i h, s.callers i ≠ .finished h) ∧
  (∀ h, s.promiseResolved = some h →
    (s.conn = none ∨ s.conn = some h) ∧
    ∀ i h2, s.callers i = .finished h2 → h2 = h)

/-! ## Generic list lemmas -/

theorem head?_mem {a : Nat} {l : List Nat} (h : l.head? = some a) : a ∈ l := by
  cases l with
  | nil => simp at h
  | cons b t => simp at h; simp [h]

theorem getLast?_mem {a : Nat} {l : List Nat} (h : l.getLast? = some a) : a ∈ l := by
  have hr : l.reverse.head? = some a := by rw [List.head?_reverse]; exact h
  have := head?_mem hr
  simpa using this

theorem suffix_getLast? {l1 l2 : List Nat} (h : l1 <:+ l2) (hne : l1 ≠ []) :
    l2.getLast? = l1.getLast? := by
  obtain ⟨t, rfl⟩ := h
  exact List.getLast?_append_of_ne_nil t hne

theorem dropWhile_head?_not {p : Nat → Bool} {l : List Nat} {a : Nat}
    (h : (l.dropWhile p).head? = some a) : p a = false := by
  induction l with
  | nil => simp at h
  | cons b t ih =>
    rw [List.dropWhile_cons] at h
    by_cases hb : p b
    · exact ih (by simpa [hb] using h)
    · simp [hb] at h
      simp [← h, hb]

theorem mem_of_mem_dropWhile {p : Nat → Bool} {l : List Nat} {a : Nat}
    (h : a ∈ l.dropWhile p) : a ∈ l :=
  (List.dropWhile_suffix p).subset h

theorem mem_dropWhile_of_not {p : Nat → Bool} {l : List Nat} {a : Nat}
    (ha : a ∈ l) (hp : p a = false) : a ∈ l.dropWhile p := by
  induction l with
  | nil => simp at ha
  | cons b t ih =>
    rw [List.dropWhile_cons]
    by_cases hb : p b
    · rcases List.mem_cons.mp ha with h | h
      · subst h; simp [hb] at hp
      · simp [hb]; exact ih h
    · simpa [hb] using ha

theorem dropWhile_eq_self_of_head? {p : Nat → Bool} {l : List Nat}
    (h : ∀ a, l.head? = some a → p a = false) : l.dropWhile p = l := by
  cases l with
  | nil => rfl
  | cons b t => simp [List.dropWhile_cons, h b rfl]

/-! ## Lemmas about `trimBy` -/

theorem trimBy_subset {p : Nat → Bool} {l : List Nat} {a : Nat}
    (h : a ∈ trimBy p l) : a ∈ l := by
  unfold trimBy at h
  rw [List.mem_reverse] at h
  have := mem_of_mem_dropWhile h
  rw [List.mem_reverse] at this
  exact mem_of_mem_dropWhile this

theorem mem_trimBy_of_not {p : Nat → Bool} {l : List Nat} {a : Nat}
    (ha : a ∈ l) (hp : p a = false) : a ∈ trimBy p l := by
  unfold trimBy
  rw [List.mem_reverse]
  exact mem_dropWhile_of_not (by rw [List.mem_reverse]; exact mem_dropWhile_of_not ha hp) hp

theorem trimBy_head?_not {p : Nat → Bool} {l : List Nat} {a : Nat}
    (h : (trimBy p l).head? = some a) : p a = false := by
  unfold trimBy at h
  rw [List.head?_reverse] at h
  by_cases hn : ((l.dropWhile p).reverse.dropWhile p) = []
  · rw [hn] at h; simp at h
  · rw [← suffix_getLast? (List.dropWhile_suffix p) hn, List.getLast?_reverse] at h
    exact dropWhile_head?_not h

theorem trimBy_getLast?_not {p : Nat → Bool} {l : List Nat} {a : Nat}
    (h : (trimBy p l).getLast? = some a) : p a = false := by
  unfold trimBy at h
  rw [List.getLast?_reverse] at h
  exact dropWhile_head?_not h

theorem trimBy_eq_self {p : Nat → Bool} {l : List Nat}
    (hh : ∀ a, l.head? = some a → p a = false)
    (hl : ∀ a, l.getLast? = some a → p a = false) : trimBy p l = l := by
  unfold trimBy
  rw [dropWhile_eq_self_of_head? hh]
  rw [dropWhile_eq_self_of_head? (by intro a ha; rw [List.head?_reverse] at ha; exact hl a ha)]
  exact List.reverse_reverse l

theorem trimBy_eq_self_of_forall {p : Nat → Bool} {l : List Nat}
    (h : ∀ a ∈ l, p a = false) : trimBy p l = l :=
  trimBy_eq_self (fun a ha => h a (head?_mem ha)) (fun a ha => h a (getLast?_mem ha))

theorem trimBy_eq_nil_iff {p : Nat → Bool} {l : List Nat} :
    trimBy p l = [] ↔ ∀ a ∈ l, p a = true := by
  unfold trimBy
  rw [List.reverse_eq_nil_iff, List.dropWhile_eq_nil_iff]
  constructor
  · intro h a ha
    by_cases hd : l.dropWhile p = []
    · exact (List.dropWhile_eq_nil_iff.mp hd) a ha
    · obtain ⟨b, t, hbt⟩ := List.exists_cons_of_ne_nil hd
      have hb : p b = false := @dropWhile_head?_not p l b (by rw [hbt]; rfl)
      have hbmem : b ∈ (l.dropWhile p).reverse := by rw [hbt]; simp
      have := h b hbmem
      rw [this] at hb; cases hb
  · intro h a ha
    rw [List.mem_reverse] at ha
    exact h a (mem_of_mem_dropWhile ha)

theorem trimBy_idem (p : Nat → Bool) (l : List Nat) :
    trimBy p (trimBy p l) = trimBy p l :=
  trimBy_eq_self (fun _ h => trimBy_head?_not h) (fun _ h => trimBy_getLast?_not h)

theorem trimBy_cons_of {p : Nat → Bool} {c : Nat} (l : List Nat) (hc : p c = true) :
    trimBy p (c :: l) = trimBy p l := by
  unfold trimBy
  rw [List.dropWhile_cons, if_pos hc]

theorem dropWhile_append_eq (p : Nat → Bool) (x y : List Nat) :
    (x ++ y).dropWhile p =
      if (x.dropWhile p).isEmpty then y.dropWhile p else x.dropWhile p ++ y := by
  induction x with
  | nil => simp
  | cons a t ih => by_cases h : p a <;> simp [List.dropWhile_cons, h, ih]

theorem trimBy_concat_of {p : Nat → Bool} (l : List Nat) {c : Nat} (hc : p c = true) :
    trimBy p (l ++ [c]) = trimBy p l := by
  unfold trimBy
  rw [dropWhile_append_eq]
  by_cases h : (l.dropWhile p).isEmpty
  · rw [if_pos h, List.isEmpty_iff.mp h]
    simp [List.dropWhile_cons, hc]
  · rw [if_neg h]
    rw [List.reverse_append]
    simp only [List.reverse_cons, List.reverse_nil, List.nil_append, List.singleton_append]
    rw [List.dropWhile_cons, if_pos hc]

theorem trimBy_decompose (p : Nat → Bool) (l : List Nat) :
    ∃ w1 w2, l = w1 ++ trimBy p l ++ w2 ∧
      (∀ a ∈ w1, p a = true) ∧ (∀ a ∈ w2, p a = true) := by
  refine ⟨l.takeWhile p, ((l.dropWhile p).reverse.takeWhile p).reverse, ?_, ?_, ?_⟩
  · have h2 : l.dropWhile p =
        trimBy p l ++ ((l.dropWhile p).reverse.takeWhile p).reverse := by
      unfold trimBy
      rw [← List.reverse_append, List.takeWhile_append_dropWhile p (l.dropWhile p).reverse,
        List.reverse_reverse]
    rw [List.append_assoc]
    conv_lhs => rw [← List.takeWhile_append_dropWhile p l]
    congr 1
  · intro a ha; exact List.mem_takeWhile_imp ha
  · intro a ha
    rw [List.mem_reverse] at ha
    exact List.mem_takeWhile_imp ha

/-! ## Lemmas about `collapseRuns` and `slugify` -/

theorem slugChar_ne_hyphen {n : Nat} (h : isSlugChar n = true) : (n == 45) = false := by
  simp only [isSlugChar, Bool.or_eq_true, Bool.and_eq_true, decide_eq_true_eq] at h
  simp only [beq_eq_false_iff_ne, ne_eq]
  omega

theorem collapseRuns_true_head? {s : List Nat} {a : Nat}
    (h : (collapseRuns s true).head? = some a) : isSlugChar a = true := by
  induction s with
  | nil => simp [collapseRuns] at h
  | cons c rest ih =>
    by_cases hc : isSlugChar c
    · simp [collapseRuns, hc] at h
      rw [← h]; exact hc
    · simp [collapseRuns, hc] at h
      exact ih h

theorem dropWhile_hyphen_collapseRuns (s : List Nat) :
    (collapseRuns s false).dropWhile (· == 45) = collapseRuns s true := by
  cases s with
  | nil => rfl
  | cons c rest =>
    by_cases hc : isSlugChar c
    · simp [collapseRuns, hc, List.dropWhile_cons, slugChar_ne_hyphen hc]
    · simp only [collapseRuns, hc, if_false, if_true, Bool.false_eq_true]
      rw [List.dropWhile_cons]
      simp only [beq_self_eq_true, if_true]
      exact dropWhile_eq_self_of_head? (fun a ha => slugChar_ne_hyphen (collapseRuns_true_head? ha))

theorem collapseRuns_chars {s : List Nat} {a : Nat} :
    ∀ {b : Bool}, a ∈ collapseRuns s b → isSlugChar a = true ∨ a = 45 := by
  induction s with
  | nil => intro b h; simp [collapseRuns] at h
  | cons c rest ih =>
    intro b h
    by_cases hc : isSlugChar c
    · simp only [collapseRuns, hc, if_true] at h
      rcases List.mem_cons.mp h with h | h
      · exact Or.inl (h ▸ hc)
      · exact ih h
    · cases b with
      | true => simp only [collapseRuns, hc, Bool.false_eq_true, if_false, if_true] at h; exact ih h
      | false =>
        simp only [collapseRuns, hc, Bool.false_eq_true, if_false] at h
        rcases List.mem_cons.mp h with h | h
        · exact Or.inr h
        · exact ih h

theorem mem_collapseRuns {s : List Nat} {a : Nat} (ha : a ∈ s) (hs : isSlugChar a = true) :
    ∀ b, a ∈ collapseRuns s b := by
  induction s with
  | nil => simp at ha
  | cons c rest ih =>
    intro b
    rcases List.mem_cons.mp ha with h | h
    · subst h
      simp [collapseRuns, hs]
    · by_cases hc : isSlugChar c
      · simp only [collapseRuns, hc, if_true]
        exact List.mem_cons_of_mem _ (ih h false)
      · cases b with
        | true =>
          simp only [collapseRuns, hc, Bool.false_eq_true, if_false, if_true]
          exact ih h true
        | false =>
          simp only [collapseRuns, hc, Bool.false_eq_true, if_false]
          exact List.mem_cons_of_mem _ (ih h true)

theorem collapseRuns_allBad {w : List Nat} (hw : ∀ a ∈ w, isSlugChar a = false) :
    collapseRuns w true = [] ∧
      (collapseRuns w false = [] ∨ collapseRuns w false = [45]) := by
  induction w with
  | nil => exact ⟨rfl, Or.inl rfl⟩
  | cons c rest ih =>
    have hc : isSlugChar c = false := hw c (List.mem_cons_self c rest)
    have ih' := ih (fun a ha => hw a (List.mem_cons_of_mem c ha))
    constructor
    · simp only [collapseRuns, hc, Bool.false_eq_true, if_false, if_true]
      exact ih'.1
    · simp only [collapseRuns, hc, Bool.false_eq_true, if_false]
      rw [ih'.1]
      exact Or.inr rfl

theorem collapseRuns_append_bad {w : List Nat} (hw : ∀ a ∈ w, isSlugChar a = false)
    (s : List Nat) : ∀ b, collapseRuns (s ++ w) b = collapseRuns s b ∨
      collapseRuns (s ++ w) b = collapseRuns s b ++ [45] := by
  induction s with
  | nil =>
    intro b
    simp only [List.nil_append, collapseRuns]
    cases b with
    | true => exact Or.inl (collapseRuns_allBad hw).1
    | false =>
      rcases (collapseRuns_allBad hw).2 with h | h
      · exact Or.inl h
      · exact Or.inr h
  | cons c rest ih =>
    intro b
    by_cases hc : isSlugChar c
    · simp only [List.cons_append, collapseRuns, hc, if_true, List.append_eq]
      rcases ih false with h | h
      · exact Or.inl (by rw [h])
      · exact Or.inr (by rw [h])
    · cases b with
      | true =>
        simp only [List.cons_append, collapseRuns, hc, Bool.false_eq_true, if_false, if_true,
          List.append_eq]
        exact ih true
      | false =>
        simp only [List.cons_append, collapseRuns, hc, Bool.false_eq_true, if_false,
          List.append_eq]
        rcases ih true with h | h
        · exact Or.inl (by rw [h])
        · exact Or.inr (by rw [h])

theorem collapseRuns_bad_append_true {w : List Nat} (hw : ∀ a ∈ w, isSlugChar a = false)
    (s : List Nat) : collapseRuns (w ++ s) true = collapseRuns s true := by
  induction w with
  | nil => rfl
  | cons c rest ih =>
    have hc : isSlugChar c = false := hw c (List.mem_cons_self c rest)
    simp only [List.cons_append, collapseRuns, hc, Bool.false_eq_true, if_false, if_true]
    exact ih (fun a ha => hw a (List.mem_cons_of_mem c ha))

theorem collapseRuns_bad_append_false {w : List Nat} (hw : ∀ a ∈ w, isSlugChar a = false)
    (hne : w ≠ []) (s : List Nat) :
    collapseRuns (w ++ s) false = 45 :: collapseRuns s true := by
  obtain ⟨c, rest, rfl⟩ := List.exists_cons_of_ne_nil hne
  have hc : isSlugChar c = false := hw c (List.mem_cons_self c rest)
  simp only [List.cons_append, collapseRuns, hc, Bool.false_eq_true, if_false, List.append_eq]
  rw [collapseRuns_bad_append_true (fun a ha => hw a (List.mem_cons_of_mem c ha))]

theorem stripHyphens_collapseRuns_false_eq_true (s : List Nat) :
    stripHyphens (collapseRuns s false) = stripHyphens (collapseRuns s true) := by
  unfold stripHyphens trimBy
  rw [dropWhile_hyphen_collapseRuns]
  rw [dropWhile_eq_self_of_head?
    (fun a ha => slugChar_ne_hyphen (collapseRuns_true_head? ha))]

theorem stripHyphens_collapse_lead {w : List Nat} (hw : ∀ a ∈ w, isSlugChar a = false)
    (s : List Nat) : stripHyphens (collapseRuns (w ++ s) false) =
      stripHyphens (collapseRuns s false) := by
  by_cases hne : w = []
  · subst hne; rfl
  · rw [collapseRuns_bad_append_false hw hne]
    unfold stripHyphens
    rw [trimBy_cons_of _ (by simp)]
    exact (stripHyphens_collapseRuns_false_eq_true s).symm

theorem stripHyphens_collapse_trail {w : List Nat} (hw : ∀ a ∈ w, isSlugChar a = false)
    (s : List Nat) : stripHyphens (collapseRuns (s ++ w) false) =
      stripHyphens (collapseRuns s false) := by
  rcases collapseRuns_append_bad hw s false with h | h
  · rw [h]
  · rw [h]
    unfold stripHyphens
    exact trimBy_concat_of _ (by simp)

theorem jsWs_not_slugChar {a : Nat} (h : isJsWs a = true) : isSlugChar a = false := by
  simp [isJsWs] at h
  simp [isSlugChar]
  omega

theorem slugify_eq_slugifySpec (t : List Nat) : slugify t = slugifySpec t := by
  unfold slugify slugifySpec
  obtain ⟨w1, w2, hdec, hw1, hw2⟩ := trimBy_decompose isJsWs (t.map toLowerJs)
  have hw1' : ∀ a ∈ w1, isSlugChar a = false := fun a ha => jsWs_not_slugChar (hw1 a ha)
  have hw2' : ∀ a ∈ w2, isSlugChar a = false := fun a ha => jsWs_not_slugChar (hw2 a ha)
  conv_rhs => rw [hdec]
  rw [List.append_assoc, stripHyphens_collapse_lead hw1', stripHyphens_collapse_trail hw2']
  rfl

theorem jsTrim_eq (l : List Nat) : jsTrim l = trimBy isJsWs l := rfl

theorem stripHyphens_eq (l : List Nat) : stripHyphens l = trimBy (· == 45) l := rfl

theorem slugChar_not_ws {a : Nat} (h : isSlugChar a = true) : isJsWs a = false := by
  simp [isSlugChar] at h
  simp [isJsWs]
  omega

theorem alnum_toLowerJs {a : Nat} (h : isAsciiAlnum a = true) :
    isSlugChar (toLowerJs a) = true := by
  simp [isAsciiAlnum] at h
  unfold toLowerJs isSlugChar
  split <;> simp_all <;> omega

theorem map_eq_self_of {f : Nat → Nat} {l : List Nat} (h : ∀ a ∈ l, f a = a) :
    l.map f = l := by
  induction l with
  | nil => rfl
  | cons a t ih =>
    simp only [List.map_cons, h a (List.mem_cons_self a t),
      ih (fun x hx => h x (List.mem_cons_of_mem a hx))]

theorem chain'_collapseRuns (s : List Nat) :
    ∀ b, List.Chain' (fun a b => ¬(a = 45 ∧ b = 45)) (collapseRuns s b) := by
  induction s with
  | nil => intro b; simp [collapseRuns]
  | cons c rest ih =>
    intro b
    by_cases hc : isSlugChar c
    · simp only [collapseRuns, hc, if_true]
      rw [List.chain'_cons']
      refine ⟨?_, ih false⟩
      intro y hy
      have hc45 : c ≠ 45 := by simpa using slugChar_ne_hyphen hc
      tauto
    · cases b with
      | true => simpa [collapseRuns, hc] using ih true
      | false =>
        simp only [collapseRuns, hc, Bool.false_eq_true, if_false]
        rw [List.chain'_cons']
        refine ⟨?_, ih true⟩
        intro y hy
        rw [Option.mem_def] at hy
        have hy45 : y ≠ 45 := by simpa using slugChar_ne_hyphen (collapseRuns_true_head? hy)
        tauto

theorem chain'_nohh_reverse {l : List Nat}
    (h : List.Chain' (fun a b => ¬(a = 45 ∧ b = 45)) l) :
    List.Chain' (fun a b => ¬(a = 45 ∧ b = 45)) l.reverse := by
  rw [List.chain'_reverse]
  exact h.imp (fun a b hab => by intro hc; exact hab ⟨hc.2, hc.1⟩)

theorem chain'_nohh_trimBy (p : Nat → Bool) {l : List Nat}
    (h : List.Chain' (fun a b => ¬(a = 45 ∧ b = 45)) l) :
    List.Chain' (fun a b => ¬(a = 45 ∧ b = 45)) (trimBy p l) := by
  unfold trimBy
  exact chain'_nohh_reverse
    ((chain'_nohh_reverse (h.suffix (List.dropWhile_suffix p))).suffix (List.dropWhile_suffix p))

theorem collapseRuns_eq_self : ∀ (n : Nat) (l : List Nat), l.length ≤ n →
    (∀ a ∈ l, isSlugChar a = true ∨ a = 45) →
    List.Chain' (fun a b => ¬(a = 45 ∧ b = 45)) l →
    (∀ a, l.head? = some a → a ≠ 45) →
    (∀ a, l.getLast? = some a → a ≠ 45) →
    ∀ b, collapseRuns l b = l := by
  intro n
  induction n with
  | zero =>
    intro l hl _ _ _ _ b
    rw [List.eq_nil_of_length_eq_zero (Nat.le_zero.mp hl)]
    rfl
  | succ n ih =>
    intro l hl hchars hchain hhead hlast b
    cases l with
    | nil => rfl
    | cons c r =>
      have hc45 : c ≠ 45 := hhead c rfl
      have hcslug : isSlugChar c = true := by
        rcases hchars c (List.mem_cons_self c r) with h | h
        · exact h
        · exact absurd h hc45
      simp only [collapseRuns, hcslug, if_true]
      congr 1
      cases r with
      | nil => rfl
      | cons d r2 =>
        by_cases hd : isSlugChar d
        · refine ih (d :: r2) ?_ (fun a ha => hchars a (List.mem_cons_of_mem c ha))
            hchain.tail ?_ ?_ false
          · simp only [List.length_cons] at hl ⊢; omega
          · intro a ha
            simp only [List.head?_cons, Option.some_inj] at ha
            subst ha
            simpa using slugChar_ne_hyphen hd
          · intro a ha
            exact hlast a (by rw [List.getLast?_cons_cons]; exact ha)
        · have hd45 : d = 45 := by
            rcases hchars d (List.mem_cons_of_mem c (List.mem_cons_self d r2)) with h | h
            · exact absurd h hd
            · exact h
          subst hd45
          cases r2 with
          | nil =>
            exact absurd (hlast 45 (by rw [List.getLast?_cons_cons]; rfl)) (by simp)
          | cons e r3 =>
            have he45 : e ≠ 45 := by
              have hrel := (hchain.tail).rel_head
              tauto
            have heslug : isSlugChar e = true := by
              rcases hchars e (by simp) with h | h
              · exact h
              · exact absurd h he45
            have h45 : isSlugChar 45 = false := by decide
            simp only [collapseRuns, h45, Bool.false_eq_true, if_false]
            congr 1
            refine ih (e :: r3) ?_ (fun a ha => hchars a (by simp [List.mem_cons] at ha ⊢; tauto))
              hchain.tail.tail ?_ ?_ true
            · simp only [List.length_cons] at hl ⊢; omega
            · intro a ha
              simp only [List.head?_cons, Option.some_inj] at ha
              subst ha; exact he45
            · intro a ha
              exact hlast a (by rw [List.getLast?_cons_cons, List.getLast?_cons_cons]; exact ha)

theorem slugify_unfold (t : List Nat) :
    slugify t = trimBy (· == 45) (collapseRuns (jsTrim (t.map toLowerJs)) false) := rfl

theorem slugify_chars {t : List Nat} {a : Nat} (ha : a ∈ slugify t) :
    isSlugChar a = true ∨ a = 45 := by
  rw [slugify_unfold] at ha
  exact collapseRuns_chars (trimBy_subset ha)

theorem slugify_head?_ne {t : List Nat} {a : Nat} (ha : (slugify t).head? = some a) :
    a ≠ 45 := by
  rw [slugify_unfold] at ha
  simpa using trimBy_head?_not ha

theorem slugify_getLast?_ne {t : List Nat} {a : Nat} (ha : (slugify t).getLast? = some a) :
    a ≠ 45 := by
  rw [slugify_unfold] at ha
  simpa using trimBy_getLast?_not ha

theorem slugify_mem_of_alnum {t : List Nat} {a : Nat} (ha : a ∈ t)
    (hal : isAsciiAlnum a = true) : toLowerJs a ∈ slugify t := by
  have h1 : toLowerJs a ∈ t.map toLowerJs := List.mem_map_of_mem toLowerJs ha
  have hslug : isSlugChar (toLowerJs a) = true := alnum_toLowerJs hal
  have h2 : toLowerJs a ∈ jsTrim (t.map toLowerJs) := by
    rw [jsTrim_eq]
    exact mem_trimBy_of_not h1 (slugChar_not_ws hslug)
  have h3 : toLowerJs a ∈ collapseRuns (jsTrim (t.map toLowerJs)) false :=
    mem_collapseRuns h2 hslug false
  rw [slugify_unfold]
  exact mem_trimBy_of_not h3 (slugChar_ne_hyphen hslug)

/-- Claim C1: for every title T, `slugify T` contains only `[a-z0-9-]` code
points, never starts or ends with a hyphen, is empty only if T contains no
ASCII alphanumeric character, and equals T lowercased with every maximal run
of characters outside `[a-z0-9]` collapsed to a single hyphen and
leading/trailing hyphens stripped (`slugifySpec`). -/
theorem slugify_ok (t : List Nat) :
    (∀ a ∈ slugify t, isSlugChar a = true ∨ a = 45) ∧
    (∀ a, (slugify t).head? = some a → a ≠ 45) ∧
    (∀ a, (slugify t).getLast? = some a → a ≠ 45) ∧
    (slugify t = [] → ∀ a ∈ t, isAsciiAlnum a = false) ∧
    slugify t = slugifySpec t := by
  refine ⟨fun a ha => slugify_chars ha, fun a ha => slugify_head?_ne ha,
    fun a ha => slugify_getLast?_ne ha, ?_, slugify_eq_slugifySpec t⟩
  intro hempty a ha
  by_contra hal
  rw [Bool.not_eq_false] at hal
  have h4 := slugify_mem_of_alnum ha hal
  rw [hempty] at h4
  simp at h4

/-- Witness for the C1 theorem at the title of the specification scenario:
`"  My Cool Talk!!  "`. -/
theorem slugify_ok_witness :
    (∀ a ∈ slugify (str "  My Cool Talk!!  "), isSlugChar a = true ∨ a = 45) ∧
    (∀ a, (slugify (str "  My Cool Talk!!  ")).head? = some a → a ≠ 45) ∧
    (∀ a, (slugify (str "  My Cool Talk!!  ")).getLast? = some a → a ≠ 45) ∧
    (slugify (str "  My Cool Talk!!  ") = [] →
      ∀ a ∈ str "  My Cool Talk!!  ", isAsciiAlnum a = false) ∧
    slugify (str "  My Cool Talk!!  ") = slugifySpec (str "  My Cool Talk!!  ") :=
  slugify_ok (str "  My Cool Talk!!  ")

/-- Claim C10: `slugify` is idempotent: slugifying an already produced slug
returns it unchanged. -/
theorem slugify_idempotent (t : List Nat) : slugify (slugify t) = slugify t := by
  have hchars : ∀ a ∈ slugify t, isSlugChar a = true ∨ a = 45 := fun a ha => slugify_chars ha
  have hchain : List.Chain' (fun a b => ¬(a = 45 ∧ b = 45)) (slugify t) := by
    rw [slugify_unfold]
    exact chain'_nohh_trimBy _ (chain'_collapseRuns _ false)
  have h1 : (slugify t).map toLowerJs = slugify t := by
    refine map_eq_self_of (fun a ha => ?_)
    rcases hchars a ha with h | h
    · simp only [isSlugChar, Bool.or_eq_true, Bool.and_eq_true, decide_eq_true_eq] at h
      unfold toLowerJs
      split
      · next hc => simp at hc; omega
      · rfl
    · subst h; rfl
  have h2 : jsTrim (slugify t) = slugify t := by
    rw [jsTrim_eq]
    refine trimBy_eq_self_of_forall (fun a ha => ?_)
    rcases hchars a ha with h | h
    · exact slugChar_not_ws h
    · subst h; rfl
  have h3 : collapseRuns (slugify t) false = slugify t :=
    collapseRuns_eq_self (slugify t).length (slugify t) le_rfl hchars hchain
      (fun a ha => slugify_head?_ne ha) (fun a ha => slugify_getLast?_ne ha) false
  have h4 : stripHyphens (slugify t) = slugify t := by
    rw [stripHyphens_eq]
    exact trimBy_eq_self
      (fun a ha => by simpa using slugify_head?_ne ha)
      (fun a ha => by simpa using slugify_getLast?_ne ha)
  calc slugify (slugify t)
      = stripHyphens (collapseRuns (jsTrim ((slugify t).map toLowerJs)) false) := rfl
    _ = slugify t := by rw [h1, h2, h3, h4]

/-! ## Calendar lemmas -/

theorem isLeap_add_400_mul (a k : Int) : isLeap (a + 400 * k) = isLeap a := by
  simp only [isLeap]
  have h4 : (a + 400 * k) % 4 = a % 4 := by omega
  have h100 : (a + 400 * k) % 100 = a % 100 := by omega
  have h400 : (a + 400 * k) % 400 = a % 400 := by omega
  rw [h4, h100, h400]

theorem yearDaysBefore_400 : yearDaysBefore 400 = 146097 := by decide

theorem yearDaysBefore_30 : yearDaysBefore 30 = 10957 := by decide

theorem yearDaysBefore_mono {a b : Nat} (h : a ≤ b) :
    yearDaysBefore a ≤ yearDaysBefore b := by
  induction b with
  | zero => simpa [Nat.le_zero.mp h]
  | succ n ih =>
    rcases Nat.lt_or_ge a (n + 1) with hl | hl
    · have : yearDaysBefore (n + 1) = yearDaysBefore n + lenYoe n := rfl
      have := ih (by omega)
      omega
    · have : a = n + 1 := by omega
      subst this
      exact le_rfl

theorem monthDaysBefore_12 (leap : Bool) :
    monthDaysBefore leap 12 = if leap then 366 else 365 := by
  cases leap <;> decide

theorem splitYear_spec : ∀ (fuel yoe rem : Nat),
    rem + yearDaysBefore yoe < yearDaysBefore (yoe + fuel + 1) →
    yearDaysBefore (splitYear fuel yoe rem).1 + (splitYear fuel yoe rem).2 =
      yearDaysBefore yoe + rem ∧
    (splitYear fuel yoe rem).2 < lenYoe (splitYear fuel yoe rem).1 ∧
    yoe ≤ (splitYear fuel yoe rem).1 ∧
    (splitYear fuel yoe rem).1 ≤ yoe + fuel := by
  intro fuel
  induction fuel with
  | zero =>
    intro yoe rem h
    have he : yearDaysBefore (yoe + 0 + 1) = yearDaysBefore yoe + lenYoe yoe := rfl
    simp only [splitYear, true_and]
    omega
  | succ fuel ih =>
    intro yoe rem h
    rw [show splitYear (fuel + 1) yoe rem =
      if rem < lenYoe yoe then (yoe, rem)
      else splitYear fuel (yoe + 1) (rem - lenYoe yoe) from rfl]
    by_cases hlt : rem < lenYoe yoe
    · rw [if_pos hlt]
      dsimp only
      omega
    · rw [if_neg hlt]
      have he : yearDaysBefore (yoe + 1) = yearDaysBefore yoe + lenYoe yoe := rfl
      have hidx : yoe + 1 + fuel + 1 = yoe + (fuel + 1) + 1 := by omega
      have ih' := ih (yoe + 1) (rem - lenYoe yoe) (by rw [hidx]; omega)
      omega

theorem splitMonth_spec : ∀ (fuel : Nat) (leap : Bool) (k rem : Nat),
    rem + monthDaysBefore leap k < monthDaysBefore leap (k + fuel + 1) →
    monthDaysBefore leap ((splitMonth fuel leap (k + 1) rem).1 - 1) +
      (splitMonth fuel leap (k + 1) rem).2 = monthDaysBefore leap k + rem ∧
    (splitMonth fuel leap (k + 1) rem).2 <
      monthLength leap (splitMonth fuel leap (k + 1) rem).1 ∧
    k + 1 ≤ (splitMonth fuel leap (k + 1) rem).1 ∧
    (splitMonth fuel leap (k + 1) rem).1 ≤ k + 1 + fuel := by
  intro fuel
  induction fuel with
  | zero =>
    intro leap k rem h
    have he : monthDaysBefore leap (k + 0 + 1) =
      monthDaysBefore leap k + monthLength leap (k + 1) := rfl
    simp only [splitMonth]
    have hk : k + 1 - 1 = k := rfl
    rw [hk]
    omega
  | succ fuel ih =>
    intro leap k rem h
    rw [show splitMonth (fuel + 1) leap (k + 1) rem =
      if rem < monthLength leap (k + 1) then (k + 1, rem)
      else splitMonth fuel leap (k + 1 + 1) (rem - monthLength leap (k + 1)) from rfl]
    by_cases hlt : rem < monthLength leap (k + 1)
    · rw [if_pos hlt]
      dsimp only
      have hk : k + 1 - 1 = k := rfl
      rw [hk]
      omega
    · rw [if_neg hlt]
      have he : monthDaysBefore leap (k + 1) =
        monthDaysBefore leap k + monthLength leap (k + 1) := rfl
      have hidx : k + 1 + fuel + 1 = k + (fuel + 1) + 1 := by omega
      have ih' := ih leap (k + 1) (rem - monthLength leap (k + 1)) (by rw [hidx]; omega)
      omega

theorem civilFromDays_correct (z : Int) :
    daysFromCivil (civilFromDays z).1 (civilFromDays z).2.1 (civilFromDays z).2.2 = z ∧
    1 ≤ (civilFromDays z).2.1 ∧ (civilFromDays z).2.1 ≤ 12 ∧
    1 ≤ (civilFromDays z).2.2 ∧
    (civilFromDays z).2.2 ≤ monthLength (isLeap (civilFromDays z).1) (civilFromDays z).2.1 := by
  rcases hq : splitYear 399 0 (z % 146097).toNat with ⟨yoe, doy⟩
  have hcond : (z % 146097).toNat + yearDaysBefore 0 < yearDaysBefore (0 + 399 + 1) := by
    have h400 : (0 : Nat) + 399 + 1 = 400 := rfl
    rw [h400, yearDaysBefore_400]
    have h0 : yearDaysBefore 0 = 0 := rfl
    omega
  have hsy := splitYear_spec 399 0 (z % 146097).toNat hcond
  rw [hq] at hsy
  dsimp only at hsy
  obtain ⟨hs1, hs2, hs3, hs4⟩ := hsy
  have h0 : yearDaysBefore 0 = 0 := rfl
  rw [h0] at hs1
  have hleap : isLeap (1970 + z / 146097 * 400 + (yoe : Int)) = isLeap (1970 + (yoe : Int)) := by
    have hr : (1970 : Int) + z / 146097 * 400 + (yoe : Int) =
        (1970 + (yoe : Int)) + 400 * (z / 146097) := by ring
    rw [hr, isLeap_add_400_mul]
  have hlen : lenYoe yoe = if isLeap (1970 + z / 146097 * 400 + (yoe : Int)) then 366 else 365 := by
    rw [hleap]; rfl
  rcases hq2 : splitMonth 11 (isLeap (1970 + z / 146097 * 400 + (yoe : Int))) 1 doy with ⟨m0, d0⟩
  have hcond2 : doy + monthDaysBefore (isLeap (1970 + z / 146097 * 400 + (yoe : Int))) 0 <
      monthDaysBefore (isLeap (1970 + z / 146097 * 400 + (yoe : Int))) (0 + 11 + 1) := by
    have h12 : (0 : Nat) + 11 + 1 = 12 := rfl
    rw [h12, monthDaysBefore_12]
    have hm0 : monthDaysBefore (isLeap (1970 + z / 146097 * 400 + (yoe : Int))) 0 = 0 := rfl
    rw [hm0]
    have hs2' := hs2
    rw [hlen] at hs2'
    by_cases hb : isLeap (1970 + z / 146097 * 400 + (yoe : Int)) = true
    · rw [if_pos hb] at hs2' ⊢; omega
    · rw [if_neg hb] at hs2' ⊢; omega
  have hsm := splitMonth_spec 11 (isLeap (1970 + z / 146097 * 400 + (yoe : Int))) 0 doy hcond2
  have h01 : (0 : Nat) + 1 = 1 := rfl
  rw [h01] at hsm
  rw [hq2] at hsm
  dsimp only at hsm
  obtain ⟨hm1, hm2, hm3, hm4⟩ := hsm
  have hmdb0 : monthDaysBefore (isLeap (1970 + z / 146097 * 400 + (yoe : Int))) 0 = 0 := rfl
  rw [hmdb0] at hm1
  simp only [civilFromDays, hq, hq2]
  refine ⟨?_, by omega, by omega, by omega, by omega⟩
  simp only [daysFromCivil]
  have hyr : (1970 : Int) + z / 146097 * 400 + (yoe : Int) - 1970 =
      z / 146097 * 400 + (yoe : Int) := by ring
  rw [hyr]
  have hdiv : (z / 146097 * 400 + (yoe : Int)) / 400 = z / 146097 := by omega
  have hmod : ((z / 146097 * 400 + (yoe : Int)) % 400).toNat = yoe := by omega
  rw [hdiv, hmod]
  have hsub : m0 + 1 - 1 = m0 := rfl
  have hdub : m0 - 1 + 1 = m0 := by omega
  omega

theorem civilFromDays_year_range (z : Int) (h1 : -719528 ≤ z) (h2 : z < 2932897) :
    0 ≤ (civilFromDays z).1 ∧ (civilFromDays z).1 ≤ 9999 := by
  rcases hq : splitYear 399 0 (z % 146097).toNat with ⟨yoe, doy⟩
  have hcond : (z % 146097).toNat + yearDaysBefore 0 < yearDaysBefore (0 + 399 + 1) := by
    have h400 : (0 : Nat) + 399 + 1 = 400 := rfl
    rw [h400, yearDaysBefore_400]
    have h0 : yearDaysBefore 0 = 0 := rfl
    omega
  have hsy := splitYear_spec 399 0 (z % 146097).toNat hcond
  rw [hq] at hsy
  dsimp only at hsy
  obtain ⟨hs1, hs2, hs3, hs4⟩ := hsy
  have h0 : yearDaysBefore 0 = 0 := rfl
  rw [h0] at hs1
  have hup : yearDaysBefore yoe + doy < yearDaysBefore (yoe + 1) := by
    have he : yearDaysBefore (yoe + 1) = yearDaysBefore yoe + lenYoe yoe := rfl
    omega
  simp only [civilFromDays, hq]
  rcases Nat.lt_or_ge yoe 30 with hy | hy
  · have hmono : yearDaysBefore (yoe + 1) ≤ yearDaysBefore 30 := yearDaysBefore_mono (by omega)
    rw [yearDaysBefore_30] at hmono
    omega
  · have hmono : yearDaysBefore 30 ≤ yearDaysBefore yoe := yearDaysBefore_mono hy
    rw [yearDaysBefore_30] at hmono
    omega

theorem matchesDateShape_formatDate (y : Int) (m d : Nat) :
    matchesDateShape (formatDate y m d) = true := by
  simp only [formatDate, pad4, pad2, List.cons_append, List.nil_append]
  simp only [matchesDateShape, isDigitCode, digitCode]
  simp only [Bool.and_eq_true, decide_eq_true_eq, beq_self_eq_true, and_true, true_and]
  omega

theorem formatDate_length (y : Int) (m d : Nat) : (formatDate y m d).length = 10 := by
  simp [formatDate, pad4, pad2]

theorem daysFromCivil_epoch : daysFromCivil 0 1 1 = -719528 := by decide

theorem daysFromCivil_year10000 : daysFromCivil 10000 1 1 = 2932897 := by decide

/-- Claim C2: for a parse failure `normalizeDate` fails with `InvalidDate`;
for every parseable input whose UTC calendar date lies between
`daysFromCivil 0 1 1` (0000-01-01) and `daysFromCivil 10000 1 1` (the last
date with a four-digit year), the output matches `^\d{4}-\d{2}-\d{2}$` and
renders exactly the calendar date (y, m, d) whose day number
`daysFromCivil y m d` is the UTC day of the input instant. -/
theorem normalizeDate_ok :
    normalizeDate none = .error .InvalidDate ∧
    ∀ ms : Int, daysFromCivil 0 1 1 * 86400000 ≤ ms →
      ms < daysFromCivil 10000 1 1 * 86400000 →
      ∃ y m d, normalizeDate (some ms) = .ok (formatDate y m d) ∧
        matchesDateShape (formatDate y m d) = true ∧
        (formatDate y m d).length = 10 ∧
        0 ≤ y ∧ y ≤ 9999 ∧ 1 ≤ m ∧ m ≤ 12 ∧ 1 ≤ d ∧
        d ≤ monthLength (isLeap y) m ∧
        daysFromCivil y m d = ms / 86400000 := by
  refine ⟨rfl, ?_⟩
  intro ms hlo hhi
  rw [daysFromCivil_epoch] at hlo
  rw [daysFromCivil_year10000] at hhi
  have hzlo : -719528 ≤ ms / 86400000 := by omega
  have hzhi : ms / 86400000 < 2932897 := by omega
  obtain ⟨hrt, hm1, hm2, hd1, hd2⟩ := civilFromDays_correct (ms / 86400000)
  obtain ⟨hy1, hy2⟩ := civilFromDays_year_range (ms / 86400000) hzlo hzhi
  refine ⟨(civilFromDays (ms / 86400000)).1, (civilFromDays (ms / 86400000)).2.1,
    (civilFromDays (ms / 86400000)).2.2, rfl, matchesDateShape_formatDate _ _ _,
    formatDate_length _ _ _, hy1, hy2, hm1, hm2, hd1, hd2, hrt⟩

/-- Witness for the C2 theorem at the epoch milliseconds of the spec
scenario date `2025-12-01T23:00:00-05:00` (= 2025-12-02T04:00Z). -/
theorem normalizeDate_ok_witness :
    ∃ y m d, normalizeDate (some 1764648000000) = .ok (formatDate y m d) ∧
      matchesDateShape (formatDate y m d) = true ∧
      (formatDate y m d).length = 10 ∧
      0 ≤ y ∧ y ≤ 9999 ∧ 1 ≤ m ∧ m ≤ 12 ∧ 1 ≤ d ∧
      d ≤ monthLength (isLeap y) m ∧
      daysFromCivil y m d = 1764648000000 / 86400000 :=
  normalizeDate_ok.2 1764648000000 (by decide) (by decide)

/-! ## Time lemmas -/

theorem bool_eq_of_iff {a b : Bool} (h : a = true ↔ b = true) : a = b := by
  cases a <;> cases b <;> simp_all

theorem isSome_if_some {α : Type} (c : Bool) (x : α) :
    (if c then some x else none).isSome = c := by
  cases c <;> rfl

theorem timeMatch_shape (t : List Nat) : (timeMatch t).isSome = isTimeShape t := by
  match t with
  | [] => rfl
  | [a] => rfl
  | [a, b] => rfl
  | [a, b, c] => rfl
  | [a, b, c, d] =>
    simp only [timeMatch]
    rw [isSome_if_some]
    apply bool_eq_of_iff
    simp only [isTimeShape, Bool.and_eq_true, Bool.or_eq_true, decide_eq_true_eq,
      beq_iff_eq, isDigitCode]
    omega
  | [a, b, c, d, e] =>
    simp only [timeMatch]
    rw [isSome_if_some]
    apply bool_eq_of_iff
    simp only [isTimeShape, Bool.and_eq_true, Bool.or_eq_true, decide_eq_true_eq,
      beq_iff_eq, isDigitCode]
    omega
  | a :: b :: c :: d :: e :: f :: rest => rfl

theorem renderTime_no_ws (h m : Nat) : ∀ a ∈ renderTime h m, isJsWs a = false := by
  intro a ha
  simp only [renderTime, pad2, digitCode] at ha
  by_cases hlt : h < 10
  · rw [if_pos hlt] at ha
    simp only [List.cons_append, List.nil_append, List.mem_cons, List.not_mem_nil,
      or_false] at ha
    simp only [isJsWs]
    rcases ha with rfl | rfl | rfl | rfl <;> simp <;> omega
  · rw [if_neg hlt] at ha
    simp only [List.cons_append, List.nil_append, List.mem_cons, List.not_mem_nil,
      or_false] at ha
    simp only [isJsWs]
    rcases ha with rfl | rfl | rfl | rfl | rfl <;> simp <;> omega

theorem normalizeTime_renderTime (h m : Nat) (hh : h ≤ 23) (hm : m ≤ 59) :
    normalizeTime (renderTime h m) = .ok (renderTimePadded h m) := by
  have htrim : jsTrim (renderTime h m) = renderTime h m := by
    rw [jsTrim_eq]
    exact trimBy_eq_self_of_forall (renderTime_no_ws h m)
  by_cases hlt : h < 10
  · have hr : renderTime h m =
        [digitCode h, 58, digitCode (m / 10 % 10), digitCode (m % 10)] := by
      simp [renderTime, pad2, if_pos hlt]
    have htm : timeMatch (renderTime h m) =
        some ([digitCode h], [digitCode (m / 10 % 10), digitCode (m % 10)]) := by
      rw [hr]
      simp only [timeMatch]
      rw [if_pos]
      simp only [digitCode, isDigitCode, Bool.and_eq_true, decide_eq_true_eq, beq_iff_eq,
        and_true, true_and]
      omega
    simp only [normalizeTime, htrim, htm]
    simp only [padStart2, renderTimePadded, pad2, digitCode, List.length_cons,
      List.length_nil, List.replicate]
    have h1 : h / 10 % 10 = 0 := by omega
    have h2 : h % 10 = h := by omega
    simp [h1, h2]
  · have hr : renderTime h m = [digitCode (h / 10 % 10), digitCode (h % 10), 58,
        digitCode (m / 10 % 10), digitCode (m % 10)] := by
      simp [renderTime, pad2, if_neg hlt]
    have htm : timeMatch (renderTime h m) =
        some ([digitCode (h / 10 % 10), digitCode (h % 10)],
          [digitCode (m / 10 % 10), digitCode (m % 10)]) := by
      rw [hr]
      simp only [timeMatch]
      rw [if_pos]
      simp only [digitCode, isDigitCode, Bool.and_eq_true, Bool.or_eq_true,
        decide_eq_true_eq, beq_iff_eq, and_true, true_and]
      omega
    simp only [normalizeTime, htrim, htm]
    simp only [padStart2, renderTimePadded, pad2, digitCode, List.length_cons,
      List.length_nil, List.replicate]
    simp

/-- Claim C3 (amended): `normalizeTime` accepts exactly the strings whose
trimmed form has shape `H:mm` or `HH:mm` with hour 0-23 and two-digit
minutes 00-59; on such input it returns the hour zero-padded to two digits
joined by a colon to the unchanged minutes; every other input fails with an
`InvalidTime` error, including `"24:00"` and `"9:60"`. -/
theorem normalizeTime_spec :
    (∀ s, (∃ v, normalizeTime s = .ok v) ↔ isTimeShape (jsTrim s) = true) ∧
    (∀ s, isTimeShape (jsTrim s) = false → normalizeTime s = .error .InvalidTime) ∧
    (∀ h m : Nat, h ≤ 23 → m ≤ 59 →
      normalizeTime (renderTime h m) = .ok (renderTimePadded h m)) ∧
    normalizeTime (str "24:00") = .error .InvalidTime ∧
    normalizeTime (str "9:60") = .error .InvalidTime := by
  have hmain : ∀ s, (∃ v, normalizeTime s = .ok v) ↔ isTimeShape (jsTrim s) = true := by
    intro s
    rw [← timeMatch_shape]
    cases htm : timeMatch (jsTrim s) with
    | none =>
      simp only [normalizeTime, htm, Option.isSome_none]
      constructor
      · rintro ⟨v, hv⟩; cases hv
      · intro hf; cases hf
    | some g =>
      simp only [normalizeTime, htm, Option.isSome_some]
      constructor
      · intro _; simp
      · intro _; exact ⟨padStart2 g.1 ++ 58 :: g.2, rfl⟩
  refine ⟨hmain, ?_, normalizeTime_renderTime, rfl, rfl⟩
  intro s hfalse
  have hnone : timeMatch (jsTrim s) = none := by
    have := timeMatch_shape (jsTrim s)
    rw [hfalse] at this
    exact Option.not_isSome_iff_eq_none.mp (by rw [this]; exact Bool.false_ne_true)
  simp only [normalizeTime, hnone]

/-- The claim as frozen is false on the code: `normalizeTime` trims its
input first, so the string `" 9:30"` is accepted and normalized even though
it does not have shape `H:mm` or `HH:mm`. -/
theorem normalizeTime_claim_counterexample :
    normalizeTime (str " 9:30") = .ok (str "09:30") ∧
    isTimeShape (str " 9:30") = false :=
  ⟨rfl, rfl⟩

/-- Witness for the C3 theorem: `"9:30"` normalizes to `"09:30"`. -/
theorem normalizeTime_spec_witness :
    normalizeTime (renderTime 9 30) = .ok (renderTimePadded 9 30) :=
  normalizeTime_spec.2.2.1 9 30 (by decide) (by decide)

/-! ## Event pre-save lemmas -/

theorem checkStringFields_error {e : EventDoc} :
    ∀ l : List (List Nat × (EventDoc → JsVal)),
      (∃ q ∈ l, badString (q.2 e) = true) →
      ∃ q ∈ l, badString (q.2 e) = true ∧
        checkStringFields e l = .error (.MissingField q.1) := by
  intro l
  induction l with
  | nil => rintro ⟨q, hq, _⟩; simp at hq
  | cons hd rest ih =>
    rintro ⟨q, hq, hbad⟩
    obtain ⟨name, get⟩ := hd
    by_cases hh : badString (get e) = true
    · exact ⟨(name, get), List.mem_cons_self _ _,
        hh, by simp [checkStringFields, hh]⟩
    · have hq' : q ∈ rest := by
        rcases List.mem_cons.mp hq with h | h
        · subst h; simp at hh; rw [hbad] at hh; cases hh
        · exact h
      obtain ⟨r, hr, hrb, hre⟩ := ih ⟨q, hq', hbad⟩
      refine ⟨r, List.mem_cons_of_mem _ hr, hrb, ?_⟩
      simp only [checkStringFields]
      rw [if_neg (by simpa using hh)]
      exact hre

theorem checkStringFields_ok {e : EventDoc} :
    ∀ l : List (List Nat × (EventDoc → JsVal)),
      (∀ q ∈ l, badString (q.2 e) = false) →
      checkStringFields e l = .ok () := by
  intro l
  induction l with
  | nil => intro _; rfl
  | cons hd rest ih =>
    intro h
    obtain ⟨name, get⟩ := hd
    have h1 : badString (get e) = false := h (name, get) (List.mem_cons_self _ _)
    simp only [checkStringFields]
    rw [if_neg (by simp [h1])]
    exact ih (fun q hq => h q (List.mem_cons_of_mem _ hq))

theorem checkArrayField_missing {name : List Nat} {v : JsVal}
    (h : badArrayShape v = true) : checkArrayField name v = .error (.MissingField name) := by
  cases v with
  | jarr elems =>
    simp only [badArrayShape] at h
    simp [checkArrayField, h]
  | jstr s => rfl
  | jundef => rfl
  | jother => rfl

theorem checkArrayField_invalid {name : List Nat} {v : JsVal}
    (h1 : badArrayShape v = false) (h2 : hasBadItem v = true) :
    checkArrayField name v = .error (.InvalidItem name) := by
  cases v with
  | jarr elems =>
    simp only [badArrayShape] at h1
    simp only [hasBadItem, Bool.not_eq_true'] at h2
    simp [checkArrayField, h1, h2]
  | jstr s => simp [badArrayShape] at h1
  | jundef => simp [badArrayShape] at h1
  | jother => simp [badArrayShape] at h1

theorem checkArrayField_ok {name : List Nat} {v : JsVal}
    (h1 : badArrayShape v = false) (h2 : hasBadItem v = false) :
    checkArrayField name v = .ok () := by
  cases v with
  | jarr elems =>
    simp only [badArrayShape] at h1
    simp only [hasBadItem, Bool.not_eq_false'] at h2
    simp [checkArrayField, h1, h2]
  | jstr s => simp [badArrayShape] at h1
  | jundef => simp [badArrayShape] at h1
  | jother => simp [badArrayShape] at h1

theorem preSave_error_checkStrings {e : EventDoc} {mf : ModifiedFlags}
    {p : List Nat → Option Int} {err : VError}
    (h : checkStringFields e requiredStringFields = .error err) :
    EventModel.preSave e mf p = .error err := by
  simp [EventModel.preSave, h]

theorem preSave_error_agenda {e : EventDoc} {mf : ModifiedFlags}
    {p : List Nat → Option Int} {err : VError}
    (h1 : checkStringFields e requiredStringFields = .ok ())
    (h2 : checkArrayField (str "agenda") e.agenda = .error err) :
    EventModel.preSave e mf p = .error err := by
  simp [EventModel.preSave, h1, h2]

theorem preSave_error_tags {e : EventDoc} {mf : ModifiedFlags}
    {p : List Nat → Option Int} {err : VError}
    (h1 : checkStringFields e requiredStringFields = .ok ())
    (h2 : checkArrayField (str "agenda") e.agenda = .ok ())
    (h3 : checkArrayField (str "tags") e.tags = .error err) :
    EventModel.preSave e mf p = .error err := by
  simp [EventModel.preSave, h1, h2, h3]

/-- Claim C4: the event pre-persist validator fails with `MissingField(name)`
when one of the eleven required scalar fields (in `requiredStringFields`) is
absent, non-string or empty after trimming (reporting the first such field);
fails with `MissingField` when `agenda` (resp. `tags`, once `agenda` is
valid) is absent, not an array, or empty; and fails with `InvalidItem` when
some element of `agenda` (resp. `tags`) is not a non-empty-after-trim
string — in particular `agenda = [""]` is rejected with `InvalidItem`. -/
theorem eventPreSave_validation :
    (∀ (e : EventDoc) (mf : ModifiedFlags) (p : List Nat → Option Int),
      (∃ q ∈ requiredStringFields, badString (q.2 e) = true) →
      ∃ q ∈ requiredStringFields, badString (q.2 e) = true ∧
        EventModel.preSave e mf p = .error (.MissingField q.1)) ∧
    (∀ (e : EventDoc) (mf : ModifiedFlags) (p : List Nat → Option Int),
      (∀ q ∈ requiredStringFields, badString (q.2 e) = false) →
      badArrayShape e.agenda = true →
      EventModel.preSave e mf p = .error (.MissingField (str "agenda"))) ∧
    (∀ (e : EventDoc) (mf : ModifiedFlags) (p : List Nat → Option Int),
      (∀ q ∈ requiredStringFields, badString (q.2 e) = false) →
      badArrayShape e.agenda = false → hasBadItem e.agenda = true →
      EventModel.preSave e mf p = .error (.InvalidItem (str "agenda"))) ∧
    (∀ (e : EventDoc) (mf : ModifiedFlags) (p : List Nat → Option Int),
      (∀ q ∈ requiredStringFields, badString (q.2 e) = false) →
      badArrayShape e.agenda = false → hasBadItem e.agenda = false →
      badArrayShape e.tags = true →
      EventModel.preSave e mf p = .error (.MissingField (str "tags"))) ∧
    (∀ (e : EventDoc) (mf : ModifiedFlags) (p : List Nat → Option Int),
      (∀ q ∈ requiredStringFields, badString (q.2 e) = false) →
      badArrayShape e.agenda = false → hasBadItem e.agenda = false →
      badArrayShape e.tags = false → hasBadItem e.tags = true →
      EventModel.preSave e mf p = .error (.InvalidItem (str "tags"))) := by
  refine ⟨?_, ?_, ?_, ?_, ?_⟩
  · intro e mf p hex
    obtain ⟨q, hq, hbad, herr⟩ := checkStringFields_error requiredStringFields hex
    exact ⟨q, hq, hbad, preSave_error_checkStrings herr⟩
  · intro e mf p hall hbad
    exact preSave_error_agenda (checkStringFields_ok _ hall) (checkArrayField_missing hbad)
  · intro e mf p hall hshape hitem
    exact preSave_error_agenda (checkStringFields_ok _ hall)
      (checkArrayField_invalid hshape hitem)
  · intro e mf p hall hs1 hi1 hbad
    exact preSave_error_tags (checkStringFields_ok _ hall)
      (checkArrayField_ok hs1 hi1) (checkArrayField_missing hbad)
  · intro e mf p hall hs1 hi1 hs2 hi2
    exact preSave_error_tags (checkStringFields_ok _ hall)
      (checkArrayField_ok hs1 hi1) (checkArrayField_invalid hs2 hi2)

/-- Witness for the C4 theorem: an event whose fields are all valid except
`agenda = [""]` is rejected with `InvalidItem("agenda")`. -/
theorem eventPreSave_validation_witness :
    EventModel.preSave
      { title := .jstr (str "t"), description := .jstr (str "d"),
        overview := .jstr (str "o"), image := .jstr (str "i"),
        venue := .jstr (str "v"), location := .jstr (str "l"),
        date := .jstr (str "2025-12-01"), time := .jstr (str "09:00"),
        mode := .jstr (str "m"), audience := .jstr (str "a"),
        organizer := .jstr (str "g"), agenda := .jarr [.jstr (str "")],
        tags := .jarr [.jstr (str "x")], slug := .jundef }
      { title := true, date := true, time := true } (fun _ => some 0)
      = .error (.InvalidItem (str "agenda")) :=
  eventPreSave_validation.2.2.1 _ _ _ (by decide) (by decide) (by decide)

/-- Claim C8: on a successful event write, the pre-save hook regenerates
`slug` exactly when `title` was modified, re-normalizes `date` exactly when
`date` was modified, re-normalizes `time` exactly when `time` was modified,
and mutates no other field of the record. -/
theorem eventPreSave_frame :
    ∀ (e : EventDoc) (mf : ModifiedFlags) (p : List Nat → Option Int) (r : EventDoc),
      EventModel.preSave e mf p = .ok r →
      r.title = e.title ∧ r.description = e.description ∧ r.overview = e.overview ∧
      r.image = e.image ∧ r.venue = e.venue ∧ r.location = e.location ∧
      r.mode = e.mode ∧ r.audience = e.audience ∧ r.organizer = e.organizer ∧
      r.agenda = e.agenda ∧ r.tags = e.tags ∧
      (mf.title = true → r.slug = .jstr (slugify (asString e.title))) ∧
      (mf.title = false → r.slug = e.slug) ∧
      (mf.date = true → ∃ ds, normalizeDate (p (asString e.date)) = .ok ds ∧
        r.date = .jstr ds) ∧
      (mf.date = false → r.date = e.date) ∧
      (mf.time = true → ∃ ts, normalizeTime (asString e.time) = .ok ts ∧
        r.time = .jstr ts) ∧
      (mf.time = false → r.time = e.time) := by
  intro e mf p r hps
  cases hck : checkStringFields e requiredStringFields with
  | error err => rw [preSave_error_checkStrings hck] at hps; cases hps
  | ok u =>
  cases u
  cases hag : checkArrayField (str "agenda") e.agenda with
  | error err => rw [preSave_error_agenda hck hag] at hps; cases hps
  | ok u2 =>
  cases u2
  cases htg : checkArrayField (str "tags") e.tags with
  | error err => rw [preSave_error_tags hck hag htg] at hps; cases hps
  | ok u3 =>
  cases u3
  simp only [EventModel.preSave, hck, hag, htg] at hps
  obtain ⟨bt, bd, btm⟩ := mf
  cases bt <;> cases bd <;> cases btm <;>
    simp only [Bool.false_eq_true, if_false, if_true] at hps
  · -- no flags
    rw [Except.ok.injEq] at hps
    subst hps
    simp
  · -- time only
    cases hnt : normalizeTime (asString e.time) with
    | error err => rw [hnt] at hps; cases hps
    | ok ts =>
      rw [hnt] at hps
      rw [Except.ok.injEq] at hps
      subst hps
      simp [hnt]
  · -- date only
    cases hnd : normalizeDate (p (asString e.date)) with
    | error err => rw [hnd] at hps; cases hps
    | ok ds =>
      rw [hnd] at hps
      rw [Except.ok.injEq] at hps
      subst hps
      simp [hnd]
  · -- date and time
    cases hnd : normalizeDate (p (asString e.date)) with
    | error err => rw [hnd] at hps; cases hps
    | ok ds =>
      simp only [hnd] at hps
      cases hnt : normalizeTime (asString e.time) with
      | error err => rw [hnt] at hps; cases hps
      | ok ts =>
        rw [hnt] at hps
        rw [Except.ok.injEq] at hps
        subst hps
        simp [hnd, hnt]
  · -- title only
    rw [Except.ok.injEq] at hps
    subst hps
    simp
  · -- title and time
    cases hnt : normalizeTime (asString e.time) with
    | error err => rw [hnt] at hps; cases hps
    | ok ts =>
      rw [hnt] at hps
      rw [Except.ok.injEq] at hps
      subst hps
      simp [hnt]
  · -- title and date
    cases hnd : normalizeDate (p (asString e.date)) with
    | error err => rw [hnd] at hps; cases hps
    | ok ds =>
      rw [hnd] at hps
      rw [Except.ok.injEq] at hps
      subst hps
      simp [hnd]
  · -- all three
    cases hnd : normalizeDate (p (asString e.date)) with
    | error err => rw [hnd] at hps; cases hps
    | ok ds =>
      simp only [hnd] at hps
      cases hnt : normalizeTime (asString e.time) with
      | error err => rw [hnt] at hps; cases hps
      | ok ts =>
        rw [hnt] at hps
        rw [Except.ok.injEq] at hps
        subst hps
        simp [hnd, hnt]

/-- Witness for the C8 theorem: a concrete successful write with all three
modification flags set (slug regenerated from the title, date normalized via
the parse outcome, time zero-padded). -/
theorem eventPreSave_frame_witness :
    ({ title := .jstr (str "t"), description := .jstr (str "d"), overview := .jstr (str "o"), image := .jstr (str "i"), venue := .jstr (str "v"), location := .jstr (str "l"), date := .jstr (str "1970-01-01"), time := .jstr (str "09:00"), mode := .jstr (str "m"), audience := .jstr (str "a"), organizer := .jstr (str "g"), agenda := .jarr [.jstr (str "x")], tags := .jarr [.jstr (str "y")], slug := .jstr (str "t") } : EventDoc).title = ({ title := .jstr (str "t"), description := .jstr (str "d"), overview := .jstr (str "o"), image := .jstr (str "i"), venue := .jstr (str "v"), location := .jstr (str "l"), date := .jstr (str "2025-12-01"), time := .jstr (str "9:00"), mode := .jstr (str "m"), audience := .jstr (str "a"), organizer := .jstr (str "g"), agenda := .jarr [.jstr (str "x")], tags := .jarr [.jstr (str "y")], slug := .jundef } : EventDoc).title ∧
    ({ title := .jstr (str "t"), description := .jstr (str "d"), overview := .jstr (str "o"), image := .jstr (str "i"), venue := .jstr (str "v"), location := .jstr (str "l"), date := .jstr (str "1970-01-01"), time := .jstr (str "09:00"), mode := .jstr (str "m"), audience := .jstr (str "a"), organizer := .jstr (str "g"), agenda := .jarr [.jstr (str "x")], tags := .jarr [.jstr (str "y")], slug := .jstr (str "t") } : EventDoc).description = ({ title := .jstr (str "t"), description := .jstr (str "d"), overview := .jstr (str "o"), image := .jstr (str "i"), venue := .jstr (str "v"), location := .jstr (str "l"), date := .jstr (str "2025-12-01"), time := .jstr (str "9:00"), mode := .jstr (str "m"), audience := .jstr (str "a"), organizer := .jstr (str "g"), agenda := .jarr [.jstr (str "x")], tags := .jarr [.jstr (str "y")], slug := .jundef } : EventDoc).description ∧
    ({ title := .jstr (str "t"), description := .jstr (str "d"), overview := .jstr (str "o"), image := .jstr (str "i"), venue := .jstr (str "v"), location := .jstr (str "l"), date := .jstr (str "1970-01-01"), time := .jstr (str "09:00"), mode := .jstr (str "m"), audience := .jstr (str "a"), organizer := .jstr (str "g"), agenda := .jarr [.jstr (str "x")], tags := .jarr [.jstr (str "y")], slug := .jstr (str "t") } : EventDoc).overview = ({ title := .jstr (str "t"), description := .jstr (str "d"), overview := .jstr (str "o"), image := .jstr (str "i"), venue := .jstr (str "v"), location := .jstr (str "l"), date := .jstr (str "2025-12-01"), time := .jstr (str "9:00"), mode := .jstr (str "m"), audience := .jstr (str "a"), organizer := .jstr (str "g"), agenda := .jarr [.jstr (str "x")], tags := .jarr [.jstr (str "y")], slug := .jundef } : EventDoc).overview ∧
    ({ title := .jstr (str "t"), description := .jstr (str "d"), overview := .jstr (str "o"), image := .jstr (str "i"), venue := .jstr (str "v"), location := .jstr (str "l"), date := .jstr (str "1970-01-01"), time := .jstr (str "09:00"), mode := .jstr (str "m"), audience := .jstr (str "a"), organizer := .jstr (str "g"), agenda := .jarr [.jstr (str "x")], tags := .jarr [.jstr (str "y")], slug := .jstr (str "t") } : EventDoc).image = ({ title := .jstr (str "t"), description := .jstr (str "d"), overview := .jstr (str "o"), image := .jstr (str "i"), venue := .jstr (str "v"), location := .jstr (str "l"), date := .jstr (str "2025-12-01"), time := .jstr (str "9:00"), mode := .jstr (str "m"), audience := .jstr (str "a"), organizer := .jstr (str "g"), agenda := .jarr [.jstr (str "x")], tags := .jarr [.jstr (str "y")], slug := .jundef } : EventDoc).image ∧
    ({ title := .jstr (str "t"), description := .jstr (str "d"), overview := .jstr (str "o"), image := .jstr (str "i"), venue := .jstr (str "v"), location := .jstr (str "l"), date := .jstr (str "1970-01-01"), time := .jstr (str "09:00"), mode := .jstr (str "m"), audience := .jstr (str "a"), organizer := .jstr (str "g"), agenda := .jarr [.jstr (str "x")], tags := .jarr [.jstr (str "y")], slug := .jstr (str "t") } : EventDoc).venue = ({ title := .jstr (str "t"), description := .jstr (str "d"), overview := .jstr (str "o"), image := .jstr (str "i"), venue := .jstr (str "v"), location := .jstr (str "l"), date := .jstr (str "2025-12-01"), time := .jstr (str "9:00"), mode := .jstr (str "m"), audience := .jstr (str "a"), organizer := .jstr (str "g"), agenda := .jarr [.jstr (str "x")], tags := .jarr [.jstr (str "y")], slug := .jundef } : EventDoc).venue ∧
    ({ title := .jstr (str "t"), description := .jstr (str "d"), overview := .jstr (str "o"), image := .jstr (str "i"), venue := .jstr (str "v"), location := .jstr (str "l"), date := .jstr (str "1970-01-01"), time := .jstr (str "09:00"), mode := .jstr (str "m"), audience := .jstr (str "a"), organizer := .jstr (str "g"), agenda := .jarr [.jstr (str "x")], tags := .jarr [.jstr (str "y")], slug := .jstr (str "t") } : EventDoc).location = ({ title := .jstr (str "t"), description := .jstr (str "d"), overview := .jstr (str "o"), image := .jstr (str "i"), venue := .jstr (str "v"), location := .jstr (str "l"), date := .jstr (str "2025-12-01"), time := .jstr (str "9:00"), mode := .jstr (str "m"), audience := .jstr (str "a"), organizer := .jstr (str "g"), agenda := .jarr [.jstr (str "x")], tags := .jarr [.jstr (str "y")], slug := .jundef } : EventDoc).location ∧
    ({ title := .jstr (str "t"), description := .jstr (str "d"), overview := .jstr (str "o"), image := .jstr (str "i"), venue := .jstr (str "v"), location := .jstr (str "l"), date := .jstr (str "1970-01-01"), time := .jstr (str "09:00"), mode := .jstr (str "m"), audience := .jstr (str "a"), organizer := .jstr (str "g"), agenda := .jarr [.jstr (str "x")], tags := .jarr [.jstr (str "y")], slug := .jstr (str "t") } : EventDoc).mode = ({ title := .jstr (str "t"), description := .jstr (str "d"), overview := .jstr (str "o"), image := .jstr (str "i"), venue := .jstr (str "v"), location := .jstr (str "l"), date := .jstr (str "2025-12-01"), time := .jstr (str "9:00"), mode := .jstr (str "m"), audience := .jstr (str "a"), organizer := .jstr (str "g"), agenda := .jarr [.jstr (str "x")], tags := .jarr [.jstr (str "y")], slug := .jundef } : EventDoc).mode ∧
    ({ title := .jstr (str "t"), description := .jstr (str "d"), overview := .jstr (str "o"), image := .jstr (str "i"), venue := .jstr (str "v"), location := .jstr (str "l"), date := .jstr (str "1970-01-01"), time := .jstr (str "09:00"), mode := .jstr (str "m"), audience := .jstr (str "a"), organizer := .jstr (str "g"), agenda := .jarr [.jstr (str "x")], tags := .jarr [.jstr (str "y")], slug := .jstr (str "t") } : EventDoc).audience = ({ title := .jstr (str "t"), description := .jstr (str "d"), overview := .jstr (str "o"), image := .jstr (str "i"), venue := .jstr (str "v"), location := .jstr (str "l"), date := .jstr (str "2025-12-01"), time := .jstr (str "9:00"), mode := .jstr (str "m"), audience := .jstr (str "a"), organizer := .jstr (str "g"), agenda := .jarr [.jstr (str "x")], tags := .jarr [.jstr (str "y")], slug := .jundef } : EventDoc).audience ∧
    ({ title := .jstr (str "t"), description := .jstr (str "d"), overview := .jstr (str "o"), image := .jstr (str "i"), venue := .jstr (str "v"), location := .jstr (str "l"), date := .jstr (str "1970-01-01"), time := .jstr (str "09:00"), mode := .jstr (str "m"), audience := .jstr (str "a"), organizer := .jstr (str "g"), agenda := .jarr [.jstr (str "x")], tags := .jarr [.jstr (str "y")], slug := .jstr (str "t") } : EventDoc).organizer = ({ title := .jstr (str "t"), description := .jstr (str "d"), overview := .jstr (str "o"), image := .jstr (str "i"), venue := .jstr (str "v"), location := .jstr (str "l"), date := .jstr (str "2025-12-01"), time := .jstr (str "9:00"), mode := .jstr (str "m"), audience := .jstr (str "a"), organizer := .jstr (str "g"), agenda := .jarr [.jstr (str "x")], tags := .jarr [.jstr (str "y")], slug := .jundef } : EventDoc).organizer ∧
    ({ title := .jstr (str "t"), description := .jstr (str "d"), overview := .jstr (str "o"), image := .jstr (str "i"), venue := .jstr (str "v"), location := .jstr (str "l"), date := .jstr (str "1970-01-01"), time := .jstr (str "09:00"), mode := .jstr (str "m"), audience := .jstr (str "a"), organizer := .jstr (str "g"), agenda := .jarr [.jstr (str "x")], tags := .jarr [.jstr (str "y")], slug := .jstr (str "t") } : EventDoc).agenda = ({ title := .jstr (str "t"), description := .jstr (str "d"), overview := .jstr (str "o"), image := .jstr (str "i"), venue := .jstr (str "v"), location := .jstr (str "l"), date := .jstr (str "2025-12-01"), time := .jstr (str "9:00"), mode := .jstr (str "m"), audience := .jstr (str "a"), organizer := .jstr (str "g"), agenda := .jarr [.jstr (str "x")], tags := .jarr [.jstr (str "y")], slug := .jundef } : EventDoc).agenda ∧
    ({ title := .jstr (str "t"), description := .jstr (str "d"), overview := .jstr (str "o"), image := .jstr (str "i"), venue := .jstr (str "v"), location := .jstr (str "l"), date := .jstr (str "1970-01-01"), time := .jstr (str "09:00"), mode := .jstr (str "m"), audience := .jstr (str "a"), organizer := .jstr (str "g"), agenda := .jarr [.jstr (str "x")], tags := .jarr [.jstr (str "y")], slug := .jstr (str "t") } : EventDoc).tags = ({ title := .jstr (str "t"), description := .jstr (str "d"), overview := .jstr (str "o"), image := .jstr (str "i"), venue := .jstr (str "v"), location := .jstr (str "l"), date := .jstr (str "2025-12-01"), time := .jstr (str "9:00"), mode := .jstr (str "m"), audience := .jstr (str "a"), organizer := .jstr (str "g"), agenda := .jarr [.jstr (str "x")], tags := .jarr [.jstr (str "y")], slug := .jundef } : EventDoc).tags ∧
    (({ title := true, date := true, time := true } : ModifiedFlags).title = true → ({ title := .jstr (str "t"), description := .jstr (str "d"), overview := .jstr (str "o"), image := .jstr (str "i"), venue := .jstr (str "v"), location := .jstr (str "l"), date := .jstr (str "1970-01-01"), time := .jstr (str "09:00"), mode := .jstr (str "m"), audience := .jstr (str "a"), organizer := .jstr (str "g"), agenda := .jarr [.jstr (str "x")], tags := .jarr [.jstr (str "y")], slug := .jstr (str "t") } : EventDoc).slug = .jstr (slugify (asString ({ title := .jstr (str "t"), description := .jstr (str "d"), overview := .jstr (str "o"), image := .jstr (str "i"), venue := .jstr (str "v"), location := .jstr (str "l"), date := .jstr (str "2025-12-01"), time := .jstr (str "9:00"), mode := .jstr (str "m"), audience := .jstr (str "a"), organizer := .jstr (str "g"), agenda := .jarr [.jstr (str "x")], tags := .jarr [.jstr (str "y")], slug := .jundef } : EventDoc).title))) ∧
    (({ title := true, date := true, time := true } : ModifiedFlags).title = false → ({ title := .jstr (str "t"), description := .jstr (str "d"), overview := .jstr (str "o"), image := .jstr (str "i"), venue := .jstr (str "v"), location := .jstr (str "l"), date := .jstr (str "1970-01-01"), time := .jstr (str "09:00"), mode := .jstr (str "m"), audience := .jstr (str "a"), organizer := .jstr (str "g"), agenda := .jarr [.jstr (str "x")], tags := .jarr [.jstr (str "y")], slug := .jstr (str "t") } : EventDoc).slug = ({ title := .jstr (str "t"), description := .jstr (str "d"), overview := .jstr (str "o"), image := .jstr (str "i"), venue := .jstr (str "v"), location := .jstr (str "l"), date := .jstr (str "2025-12-01"), time := .jstr (str "9:00"), mode := .jstr (str "m"), audience := .jstr (str "a"), organizer := .jstr (str "g"), agenda := .jarr [.jstr (str "x")], tags := .jarr [.jstr (str "y")], slug := .jundef } : EventDoc).slug) ∧
    (({ title := true, date := true, time := true } : ModifiedFlags).date = true → ∃ ds, normalizeDate ((fun _ => some 0) (asString ({ title := .jstr (str "t"), description := .jstr (str "d"), overview := .jstr (str "o"), image := .jstr (str "i"), venue := .jstr (str "v"), location := .jstr (str "l"), date := .jstr (str "2025-12-01"), time := .jstr (str "9:00"), mode := .jstr (str "m"), audience := .jstr (str "a"), organizer := .jstr (str "g"), agenda := .jarr [.jstr (str "x")], tags := .jarr [.jstr (str "y")], slug := .jundef } : EventDoc).date)) = .ok ds ∧ ({ title := .jstr (str "t"), description := .jstr (str "d"), overview := .jstr (str "o"), image := .jstr (str "i"), venue := .jstr (str "v"), location := .jstr (str "l"), date := .jstr (str "1970-01-01"), time := .jstr (str "09:00"), mode := .jstr (str "m"), audience := .jstr (str "a"), organizer := .jstr (str "g"), agenda := .jarr [.jstr (str "x")], tags := .jarr [.jstr (str "y")], slug := .jstr (str "t") } : EventDoc).date = .jstr ds) ∧
    (({ title := true, date := true, time := true } : ModifiedFlags).date = false → ({ title := .jstr (str "t"), description := .jstr (str "d"), overview := .jstr (str "o"), image := .jstr (str "i"), venue := .jstr (str "v"), location := .jstr (str "l"), date := .jstr (str "1970-01-01"), time := .jstr (str "09:00"), mode := .jstr (str "m"), audience := .jstr (str "a"), organizer := .jstr (str "g"), agenda := .jarr [.jstr (str "x")], tags := .jarr [.jstr (str "y")], slug := .jstr (str "t") } : EventDoc).date = ({ title := .jstr (str "t"), description := .jstr (str "d"), overview := .jstr (str "o"), image := .jstr (str "i"), venue := .jstr (str "v"), location := .jstr (str "l"), date := .jstr (str "2025-12-01"), time := .jstr (str "9:00"), mode := .jstr (str "m"), audience := .jstr (str "a"), organizer := .jstr (str "g"), agenda := .jarr [.jstr (str "x")], tags := .jarr [.jstr (str "y")], slug := .jundef } : EventDoc).date) ∧
    (({ title := true, date := true, time := true } : ModifiedFlags).time = true → ∃ ts, normalizeTime (asString ({ title := .jstr (str "t"), description := .jstr (str "d"), overview := .jstr (str "o"), image := .jstr (str "i"), venue := .jstr (str "v"), location := .jstr (str "l"), date := .jstr (str "2025-12-01"), time := .jstr (str "9:00"), mode := .jstr (str "m"), audience := .jstr (str "a"), organizer := .jstr (str "g"), agenda := .jarr [.jstr (str "x")], tags := .jarr [.jstr (str "y")], slug := .jundef } : EventDoc).time) = .ok ts ∧ ({ title := .jstr (str "t"), description := .jstr (str "d"), overview := .jstr (str "o"), image := .jstr (str "i"), venue := .jstr (str "v"), location := .jstr (str "l"), date := .jstr (str "1970-01-01"), time := .jstr (str "09:00"), mode := .jstr (str "m"), audience := .jstr (str "a"), organizer := .jstr (str "g"), agenda := .jarr [.jstr (str "x")], tags := .jarr [.jstr (str "y")], slug := .jstr (str "t") } : EventDoc).time = .jstr ts) ∧
    (({ title := true, date := true, time := true } : ModifiedFlags).time = false → ({ title := .jstr (str "t"), description := .jstr (str "d"), overview := .jstr (str "o"), image := .jstr (str "i"), venue := .jstr (str "v"), location := .jstr (str "l"), date := .jstr (str "1970-01-01"), time := .jstr (str "09:00"), mode := .jstr (str "m"), audience := .jstr (str "a"), organizer := .jstr (str "g"), agenda := .jarr [.jstr (str "x")], tags := .jarr [.jstr (str "y")], slug := .jstr (str "t") } : EventDoc).time = ({ title := .jstr (str "t"), description := .jstr (str "d"), overview := .jstr (str "o"), image := .jstr (str "i"), venue := .jstr (str "v"), location := .jstr (str "l"), date := .jstr (str "2025-12-01"), time := .jstr (str "9:00"), mode := .jstr (str "m"), audience := .jstr (str "a"), organizer := .jstr (str "g"), agenda := .jarr [.jstr (str "x")], tags := .jarr [.jstr (str "y")], slug := .jundef } : EventDoc).time) :=
  eventPreSave_frame ({ title := .jstr (str "t"), description := .jstr (str "d"), overview := .jstr (str "o"), image := .jstr (str "i"), venue := .jstr (str "v"), location := .jstr (str "l"), date := .jstr (str "2025-12-01"), time := .jstr (str "9:00"), mode := .jstr (str "m"), audience := .jstr (str "a"), organizer := .jstr (str "g"), agenda := .jarr [.jstr (str "x")], tags := .jarr [.jstr (str "y")], slug := .jundef } : EventDoc) ({ title := true, date := true, time := true } : ModifiedFlags) (fun _ => some 0) ({ title := .jstr (str "t"), description := .jstr (str "d"), overview := .jstr (str "o"), image := .jstr (str "i"), venue := .jstr (str "v"), location := .jstr (str "l"), date := .jstr (str "1970-01-01"), time := .jstr (str "09:00"), mode := .jstr (str "m"), audience := .jstr (str "a"), organizer := .jstr (str "g"), agenda := .jarr [.jstr (str "x")], tags := .jarr [.jstr (str "y")], slug := .jstr (str "t") } : EventDoc) rfl

/-! ## Booking lemmas -/

theorem jsWs_toLowerJs (a : Nat) : isJsWs (toLowerJs a) = isJsWs a := by
  unfold toLowerJs
  split
  · next h =>
    simp only [Bool.and_eq_true, decide_eq_true_eq] at h
    apply bool_eq_of_iff
    simp only [isJsWs, Bool.or_eq_true, Bool.and_eq_true, beq_iff_eq, decide_eq_true_eq]
    omega
  · rfl

theorem emailClass_toLowerJs (a : Nat) : emailClassChar (toLowerJs a) = emailClassChar a := by
  simp only [emailClassChar, jsWs_toLowerJs]
  congr 1
  apply bool_eq_of_iff
  simp only [Bool.or_eq_true, beq_iff_eq]
  unfold toLowerJs
  split
  · next h =>
    simp only [Bool.and_eq_true, decide_eq_true_eq] at h
    constructor
    · rintro (hw | he)
      · exact Or.inl hw
      · omega
    · rintro (hw | he)
      · exact Or.inl hw
      · omega
  · exact Iff.rfl

theorem dropWhile_map_eq {f : Nat → Nat} {p : Nat → Bool}
    (hpf : ∀ a, p (f a) = p a) (l : List Nat) :
    (l.map f).dropWhile p = (l.dropWhile p).map f := by
  induction l with
  | nil => rfl
  | cons a t ih =>
    simp only [List.map_cons, List.dropWhile_cons, hpf a]
    by_cases h : p a
    · simp [h, ih]
    · simp [h]

theorem trimBy_map_eq {f : Nat → Nat} {p : Nat → Bool}
    (hpf : ∀ a, p (f a) = p a) (l : List Nat) :
    trimBy p (l.map f) = (trimBy p l).map f := by
  unfold trimBy
  rw [dropWhile_map_eq hpf, ← List.map_reverse, dropWhile_map_eq hpf, ← List.map_reverse]

theorem jsTrim_map_toLowerJs (l : List Nat) :
    jsTrim (l.map toLowerJs) = (jsTrim l).map toLowerJs := by
  rw [jsTrim_eq, jsTrim_eq]
  exact trimBy_map_eq jsWs_toLowerJs l

theorem emailClassChar_ne64 {x : Nat} (h : emailClassChar x = true) : (x != 64) = true := by
  simp only [emailClassChar, Bool.not_eq_true', Bool.or_eq_false_iff, beq_eq_false_iff_ne] at h
  simpa using h.2

theorem takeWhile_append_all {p : Nat → Bool} {a : List Nat}
    (h : ∀ x ∈ a, p x = true) (l : List Nat) :
    (a ++ l).takeWhile p = a ++ l.takeWhile p := by
  induction a with
  | nil => rfl
  | cons c t ih =>
    simp only [List.cons_append, List.takeWhile_cons, h c (List.mem_cons_self c t),
      if_true]
    rw [ih (fun x hx => h x (List.mem_cons_of_mem c hx))]

theorem mem_dropLast_decomp {x : Nat} : ∀ {l : List Nat}, x ∈ l.dropLast →
    ∃ u w, l = u ++ x :: w ∧ w ≠ [] := by
  intro l
  induction l with
  | nil => intro h; simp at h
  | cons a t ih =>
    intro h
    cases t with
    | nil => simp at h
    | cons b t2 =>
      rw [List.dropLast_cons_of_ne_nil (by simp)] at h
      rcases List.mem_cons.mp h with rfl | h2
      · exact ⟨[], b :: t2, rfl, by simp⟩
      · obtain ⟨u, w, hw, hne⟩ := ih h2
        exact ⟨a :: u, w, by rw [List.cons_append, ← hw], hne⟩

theorem emailMatch_iff (s : List Nat) : emailMatch s = true ↔ EmailShape s := by
  constructor
  · intro h
    simp only [emailMatch] at h
    cases hdrop : s.drop (s.takeWhile (fun c => c != 64)).length with
    | nil => rw [hdrop] at h; cases h
    | cons c r =>
      rw [hdrop] at h
      simp only [Bool.and_eq_true, beq_iff_eq, Bool.not_eq_true'] at h
      obtain ⟨⟨⟨⟨hc64, hane⟩, halla⟩, hallr⟩, hdot⟩ := h
      subst hc64
      obtain ⟨t, ht⟩ := @List.takeWhile_prefix Nat s (fun c => c != 64)
      have hts := List.drop_left (s.takeWhile (fun c => c != 64)) t
      rw [ht, hdrop] at hts
      subst hts
      replace hdot : (46 : Nat) ∈ (r.drop 1).dropLast := by simpa using hdot
      cases r with
      | nil => simp at hdot
      | cons r0 rt =>
        have hdrop1 : (r0 :: rt).drop 1 = rt := rfl
        rw [hdrop1] at hdot
        have hrtne : rt ≠ [] := by
          intro hnil
          rw [hnil] at hdot
          simp at hdot
        obtain ⟨u, w, hrt, hwne⟩ := mem_dropLast_decomp hdot
        refine ⟨s.takeWhile (fun c => c != 64), r0 :: u, w,
          ?_, by simpa using hane, by simp, hwne, ?_, ?_, ?_⟩
        · conv_lhs => rw [← ht]
          rw [hrt]
          simp
        · intro x hx
          rw [List.all_eq_true] at halla
          exact halla x hx
        · intro x hx
          rw [List.all_eq_true] at hallr
          apply hallr
          rcases List.mem_cons.mp hx with h | h
          · simp [h]
          · simp only [List.mem_cons]
            right
            rw [hrt]
            simp only [List.mem_append, List.mem_cons]
            exact Or.inl h
        · intro x hx
          rw [List.all_eq_true] at hallr
          apply hallr
          simp only [List.mem_cons]
          right
          rw [hrt]
          simp only [List.mem_append, List.mem_cons]
          right
          right
          exact hx
  · rintro ⟨a, b, c, hs, ha, hb, hc, hca, hcb, hcc⟩
    have htake : s.takeWhile (fun x => x != 64) = a := by
      rw [hs, takeWhile_append_all (fun x hx => emailClassChar_ne64 (hca x hx))]
      simp [List.takeWhile_cons]
    have hdropa : s.drop a.length = 64 :: (b ++ 46 :: c) := by
      rw [hs]
      exact List.drop_left a _
    simp only [emailMatch, htake, hdropa]
    simp only [Bool.and_eq_true, beq_iff_eq, Bool.not_eq_true']
    obtain ⟨b0, bt, rfl⟩ := List.exists_cons_of_ne_nil hb
    refine ⟨⟨⟨⟨by trivial, by simpa using ha⟩, ?_⟩, ?_⟩, ?_⟩
    · rw [List.all_eq_true]; exact hca
    · rw [List.all_eq_true]
      intro x hx
      simp only [List.cons_append, List.mem_cons, List.mem_append] at hx
      rcases hx with rfl | h | rfl | h
      · exact hcb x (List.mem_cons_self _ _)
      · exact hcb x (List.mem_cons_of_mem _ h)
      · rfl
      · exact hcc x h
    · have hd1 : ((b0 :: bt) ++ 46 :: c).drop 1 = bt ++ 46 :: c := rfl
      rw [hd1]
      rw [List.dropLast_append_of_ne_nil bt (by simp)]
      rw [List.dropLast_cons_of_ne_nil hc]
      simp

theorem emailShape_map_toLowerJs {t : List Nat} (h : EmailShape t) :
    EmailShape (t.map toLowerJs) := by
  obtain ⟨a, b, c, hs, ha, hb, hc, hca, hcb, hcc⟩ := h
  have h64 : toLowerJs 64 = 64 := rfl
  have h46 : toLowerJs 46 = 46 := rfl
  refine ⟨a.map toLowerJs, b.map toLowerJs, c.map toLowerJs, ?_,
    by simpa using ha, by simpa using hb, by simpa using hc, ?_, ?_, ?_⟩
  · rw [hs]
    simp [h64, h46]
  · intro x hx
    obtain ⟨y, hy, rfl⟩ := List.mem_map.mp hx
    rw [emailClass_toLowerJs]
    exact hca y hy
  · intro x hx
    obtain ⟨y, hy, rfl⟩ := List.mem_map.mp hx
    rw [emailClass_toLowerJs]
    exact hcb y hy
  · intro x hx
    obtain ⟨y, hy, rfl⟩ := List.mem_map.mp hx
    rw [emailClass_toLowerJs]
    exact hcc y hy

/-- Claim C5: a booking whose email is `"not-an-email"` fails with
`InvalidEmail`; one whose trimmed email matches the email pattern but whose
`eventId` resolves to no event fails with `DanglingReference`; one with such
an email and an existing event succeeds, persisting the trimmed lowercased
email. -/
theorem bookingPreSave_spec :
    (∀ ex, BookingModel.preSave (.jstr (str "not-an-email")) ex = .error .InvalidEmail) ∧
    (∀ s, EmailShape (jsTrim s) →
      BookingModel.preSave (.jstr s) false = .error .DanglingReference) ∧
    (∀ s, EmailShape (jsTrim s) →
      BookingModel.preSave (.jstr s) true = .ok (jsTrim (s.map toLowerJs))) := by
  have hmain : ∀ s, EmailShape (jsTrim s) → ∀ ex : Bool,
      BookingModel.preSave (.jstr s) ex =
        if ex then .ok (jsTrim (s.map toLowerJs)) else .error .DanglingReference := by
    intro s hsh ex
    have hcomm : jsTrim (s.map toLowerJs) = (jsTrim s).map toLowerJs :=
      jsTrim_map_toLowerJs s
    have hidem : jsTrim (jsTrim (s.map toLowerJs)) = jsTrim (s.map toLowerJs) := by
      rw [jsTrim_eq, jsTrim_eq]
      exact trimBy_idem _ _
    have hshape2 : EmailShape (jsTrim (s.map toLowerJs)) := by
      rw [hcomm]
      exact emailShape_map_toLowerJs hsh
    have hmatch : emailMatch (jsTrim (s.map toLowerJs)) = true :=
      (emailMatch_iff _).mpr hshape2
    have hne : (jsTrim (s.map toLowerJs)).isEmpty = false := by
      obtain ⟨a, b, c, hs2, ha, _⟩ := hshape2
      rw [hs2]
      simp
    simp only [BookingModel.preSave, hidem, hne, hmatch]
    cases ex <;> simp
  refine ⟨fun ex => rfl, fun s h => ?_, fun s h => ?_⟩
  · rw [hmain s h false]
    simp
  · rw [hmain s h true]
    simp

/-- Witness for the C5 theorem: `"  User@Example.COM "` with an existing
event is persisted as `"user@example.com"`. -/
theorem bookingPreSave_spec_witness :
    BookingModel.preSave (.jstr (str "  User@Example.COM ")) true =
      .ok (jsTrim ((str "  User@Example.COM ").map toLowerJs)) :=
  bookingPreSave_spec.2.2 (str "  User@Example.COM ")
    ⟨str "User", str "Example", str "COM", by decide, by decide, by decide, by decide,
      by decide, by decide, by decide⟩

/-- Claim C6: a booking write whose email is absent, non-string, or empty
after trimming fails with `MissingField("email")` and no other error. -/
theorem bookingPreSave_missing :
    ∀ (v : JsVal) (ex : Bool), badString v = true →
      BookingModel.preSave v ex = .error (.MissingField (str "email")) := by
  intro v ex hbad
  cases v with
  | jstr s =>
    simp only [badString, List.isEmpty_iff] at hbad
    have hall : ∀ a ∈ s, isJsWs a = true := by
      rw [jsTrim_eq] at hbad
      exact trimBy_eq_nil_iff.mp hbad
    have hall2 : ∀ a ∈ s.map toLowerJs, isJsWs a = true := by
      intro a ha
      obtain ⟨y, hy, rfl⟩ := List.mem_map.mp ha
      rw [jsWs_toLowerJs]
      exact hall y hy
    have hnil : jsTrim (s.map toLowerJs) = [] := by
      rw [jsTrim_eq]
      exact trimBy_eq_nil_iff.mpr hall2
    simp [BookingModel.preSave, hnil, show jsTrim ([] : List Nat) = [] from rfl]
  | jarr elems => rfl
  | jundef => rfl
  | jother => rfl

/-- Witness for the C6 theorem: an absent email is rejected with
`MissingField("email")`. -/
theorem bookingPreSave_missing_witness :
    BookingModel.preSave .jundef true = .error (.MissingField (str "email")) :=
  bookingPreSave_missing .jundef true rfl

/-! ## Connection state machine lemmas -/

theorem dbInv_init (I : Type) : DBInv (initDBState I) := by
  refine ⟨rfl, fun _ => ⟨rfl, rfl, fun i => rfl⟩, fun _ => ⟨rfl, fun i h => ?_⟩,
    fun h hres => by cases hres⟩
  intro hc
  cases hc

theorem dbInv_step {I : Type} [DecidableEq I] {s s2 : DBState I}
    (hstep : DBStep s s2) (hinv : DBInv s) : DBInv s2 := by
  obtain ⟨h1, h2, h3, h4⟩ := hinv
  cases hstep with
  | firstCall i hstart hconn hpc =>
    obtain ⟨hres, _, hcallers⟩ := h2 hpc
    refine ⟨by simp [h1, hpc], by simp, ?_, ?_⟩
    · intro _
      refine ⟨hconn, fun j h => ?_⟩
      simp only [Function.update_apply]
      by_cases hj : j = i
      · simp [hj]
      · simp [hj, hcallers j]
    · intro h hres2
      simp only at hres2
      rw [hres] at hres2
      cases hres2
  | joinPending i hstart hconn hpc =>
    refine ⟨h1, by simp [hpc], ?_, ?_⟩
    · intro hres
      refine ⟨(h3 hres).1, fun j h => ?_⟩
      simp only [Function.update_apply]
      by_cases hj : j = i
      · simp [hj]
      · simp only [hj, if_false]
        exact (h3 hres).2 j h
    · intro h hres
      refine ⟨(h4 h hres).1, fun j h2 hj2 => ?_⟩
      simp only [Function.update_apply] at hj2
      by_cases hj : j = i
      · rw [if_pos hj] at hj2; cases hj2
      · rw [if_neg hj] at hj2
        exact (h4 h hres).2 j h2 hj2
  | reuseConn i c hstart hconn =>
    have hpc : s.promiseCreated = true := by
      by_contra hf
      rw [Bool.not_eq_true] at hf
      rw [(h2 hf).2.1] at hconn
      cases hconn
    have hres : ∃ hh, s.promiseResolved = some hh := by
      cases hr : s.promiseResolved with
      | none => rw [(h3 hr).1] at hconn; cases hconn
      | some hh => exact ⟨hh, rfl⟩
    obtain ⟨hh, hres⟩ := hres
    have hch : c = hh := by
      rcases (h4 hh hres).1 with hn | hs2
      · rw [hn] at hconn; cases hconn
      · rw [hs2] at hconn; injection hconn with he; exact he.symm
    refine ⟨h1, (by simp [hpc]), ?_, ?_⟩
    · intro hr; simp only at hr; rw [hr] at hres; cases hres
    · intro h5 hres2
      simp only at hres2
      rw [hres] at hres2
      injection hres2 with he
      refine ⟨?_, fun j h2 hj2 => ?_⟩
      · rw [← he]
        exact (h4 hh hres).1
      · simp only [Function.update_apply] at hj2
        by_cases hj : j = i
        · rw [if_pos hj] at hj2
          injection hj2 with he2
          rw [← he2, hch, he]
        · rw [if_neg hj] at hj2
          rw [← he]
          exact (h4 hh hres).2 j h2 hj2
  | resolve h hpc hres =>
    refine ⟨h1, (by simp [hpc]), (by intro hr; simp only at hr; cases hr), ?_⟩
    intro h2 hres2
    simp only at hres2
    injection hres2 with he
    subst he
    refine ⟨Or.inl (h3 hres).1, fun j h3' hj => ?_⟩
    exact absurd hj ((h3 hres).2 j h3')
  | wake i h hawait hres =>
    have hpc : s.promiseCreated = true := by
      by_contra hf
      rw [Bool.not_eq_true] at hf
      have := (h2 hf).2.2 i
      rw [this] at hawait
      cases hawait
    refine ⟨h1, (by simp [hpc]),
      (by intro hr; simp only at hr; rw [hr] at hres; cases hres), ?_⟩
    intro h5 hres2
    simp only at hres2
    rw [hres] at hres2
    injection hres2 with he
    refine ⟨?_, fun j h3' hj => ?_⟩
    · rw [← he]
      exact Or.inr rfl
    · simp only [Function.update_apply] at hj
      by_cases hji : j = i
      · rw [if_pos hji] at hj
        injection hj with he2
        rw [← he2, he]
      · rw [if_neg hji] at hj
        rw [← he]
        exact (h4 h hres).2 j h3' hj

theorem dbInv_reachable {I : Type} [DecidableEq I] {s : DBState I}
    (h : ReachableDB s) : DBInv s := by
  induction h with
  | refl => exact dbInv_init I
  | tail hr hstep ih => exact dbInv_step hstep ih

/-- Claim C9: in every reachable state of the interleaved
`connectToDatabase` semantics, `mongoose.connect` has been invoked at most
once; all finished callers hold the same handle; a finished caller holds
exactly the handle the single shared promise resolved to (so late callers
reuse it); and a cached connection is never replaced by any step. -/
theorem connectToDatabase_single_flight :
    ∀ (I : Type) [DecidableEq I] (s : DBState I), ReachableDB s →
      s.connectCalls ≤ 1 ∧
      (∀ i j hi hj, s.callers i = .finished hi → s.callers j = .finished hj → hi = hj) ∧
      (∀ i h, s.callers i = .finished h →
        s.promiseResolved = some h ∧ s.connectCalls = 1) ∧
      (∀ s2, DBStep s s2 → ∀ c, s.conn = some c → s2.conn = some c) := by
  intro I _ s hr
  obtain ⟨h1, h2, h3, h4⟩ := dbInv_reachable hr
  refine ⟨?_, ?_, ?_, ?_⟩
  · rw [h1]
    split <;> omega
  · intro i j hi hj hfi hfj
    cases hres : s.promiseResolved with
    | none => exact absurd hfi ((h3 hres).2 i hi)
    | some hh =>
      have e1 := (h4 hh hres).2 i hi hfi
      have e2 := (h4 hh hres).2 j hj hfj
      rw [e1, e2]
  · intro i h hfi
    cases hres : s.promiseResolved with
    | none => exact absurd hfi ((h3 hres).2 i h)
    | some hh =>
      have e1 := (h4 hh hres).2 i h hfi
      have hpc : s.promiseCreated = true := by
        by_contra hf
        rw [Bool.not_eq_true] at hf
        rw [(h2 hf).1] at hres
        cases hres
      subst e1
      exact ⟨rfl, by rw [h1, if_pos hpc]⟩
  · intro s2 hstep c hconn
    cases hstep with
    | firstCall i hstart hc hpc => rw [hc] at hconn; cases hconn
    | joinPending i hstart hc hpc => rw [hc] at hconn; cases hconn
    | reuseConn i c2 hstart hc => exact hconn
    | resolve h hpc hres => exact hconn
    | wake i h hawait hres =>
      cases hres0 : s.promiseResolved with
      | none => rw [(h3 hres0).1] at hconn; cases hconn
      | some hh =>
        rcases (h4 hh hres0).1 with hn | hs2
        · rw [hn] at hconn; cases hconn
        · rw [hs2] at hconn
          injection hconn with he
          rw [hres0] at hres
          injection hres with he2
          show some h = some c
          rw [← he2, he]

/-- Witness for the C9 theorem at the initial state of a one-caller
process. -/
theorem connectToDatabase_single_flight_witness :
    (initDBState Unit).connectCalls ≤ 1 ∧
    (∀ i j hi hj, (initDBState Unit).callers i = .finished hi →
      (initDBState Unit).callers j = .finished hj → hi = hj) ∧
    (∀ i h, (initDBState Unit).callers i = .finished h →
      (initDBState Unit).promiseResolved = some h ∧
      (initDBState Unit).connectCalls = 1) ∧
    (∀ s2, DBStep (initDBState Unit) s2 → ∀ c,
      (initDBState Unit).conn = some c → s2.conn = some c) :=
  connectToDatabase_single_flight Unit (initDBState Unit) Relation.ReflTransGen.refl

/-- Claim C7 (code behavior): the POST handler answers 201 with the created
record on the success path and 400 when the image part is missing, but a
request whose payload `req.formData()` cannot parse is answered 500 by the
outer catch, not 400 — the inner catch that would return 400 only guards
`Object.fromEntries`, which cannot throw, so the claimed 400 for an
unparseable payload never happens. -/
theorem postHandler_statuses :
    POST { connectOk := true, formDataOk := false, imagePart := some (str "f"), uploadResult := .ok (str "u"), doc := { title := .jstr (str "t"), description := .jstr (str "d"), overview := .jstr (str "o"), image := .jstr (str "i"), venue := .jstr (str "v"), location := .jstr (str "l"), date := .jstr (str "2025-12-01"), time := .jstr (str "9:00"), mode := .jstr (str "m"), audience := .jstr (str "a"), organizer := .jstr (str "g"), agenda := .jarr [.jstr (str "x")], tags := .jarr [.jstr (str "y")], slug := .jundef }, flags := { title := true, date := true, time := true }, parseDate := fun _ => some 0 } = (500, .creationFailed) ∧
    POST { connectOk := true, formDataOk := true, imagePart := none, uploadResult := .ok (str "u"), doc := { title := .jstr (str "t"), description := .jstr (str "d"), overview := .jstr (str "o"), image := .jstr (str "i"), venue := .jstr (str "v"), location := .jstr (str "l"), date := .jstr (str "2025-12-01"), time := .jstr (str "9:00"), mode := .jstr (str "m"), audience := .jstr (str "a"), organizer := .jstr (str "g"), agenda := .jarr [.jstr (str "x")], tags := .jarr [.jstr (str "y")], slug := .jundef }, flags := { title := true, date := true, time := true }, parseDate := fun _ => some 0 } = (400, .imageRequired) ∧
    POST { connectOk := true, formDataOk := true, imagePart := some (str "f"), uploadResult := .error (), doc := { title := .jstr (str "t"), description := .jstr (str "d"), overview := .jstr (str "o"), image := .jstr (str "i"), venue := .jstr (str "v"), location := .jstr (str "l"), date := .jstr (str "2025-12-01"), time := .jstr (str "9:00"), mode := .jstr (str "m"), audience := .jstr (str "a"), organizer := .jstr (str "g"), agenda := .jarr [.jstr (str "x")], tags := .jarr [.jstr (str "y")], slug := .jundef }, flags := { title := true, date := true, time := true }, parseDate := fun _ => some 0 } = (500, .creationFailed) ∧
    POST { connectOk := false, formDataOk := true, imagePart := some (str "f"), uploadResult := .ok (str "u"), doc := { title := .jstr (str "t"), description := .jstr (str "d"), overview := .jstr (str "o"), image := .jstr (str "i"), venue := .jstr (str "v"), location := .jstr (str "l"), date := .jstr (str "2025-12-01"), time := .jstr (str "9:00"), mode := .jstr (str "m"), audience := .jstr (str "a"), organizer := .jstr (str "g"), agenda := .jarr [.jstr (str "x")], tags := .jarr [.jstr (str "y")], slug := .jundef }, flags := { title := true, date := true, time := true }, parseDate := fun _ => some 0 } = (500, .creationFailed) ∧
    POST { connectOk := true, formDataOk := true, imagePart := some (str "f"), uploadResult := .ok (str "u"), doc := { title := .jstr (str "t"), description := .jstr (str "d"), overview := .jstr (str "o"), image := .jstr (str "i"), venue := .jstr (str "v"), location := .jstr (str "l"), date := .jstr (str "2025-12-01"), time := .jstr (str "9:00"), mode := .jstr (str "m"), audience := .jstr (str "a"), organizer := .jstr (str "g"), agenda := .jarr [.jstr (str "x")], tags := .jarr [.jstr (str "y")], slug := .jundef }, flags := { title := true, date := true, time := true }, parseDate := fun _ => some 0 } =
      (201, .createdOk ({ title := .jstr (str "t"), description := .jstr (str "d"), overview := .jstr (str "o"), image := .jstr (str "u"), venue := .jstr (str "v"), location := .jstr (str "l"), date := .jstr (str "1970-01-01"), time := .jstr (str "09:00"), mode := .jstr (str "m"), audience := .jstr (str "a"), organizer := .jstr (str "g"), agenda := .jarr [.jstr (str "x")], tags := .jarr [.jstr (str "y")], slug := .jstr (str "t") } : EventDoc)) :=
  ⟨rfl, rfl, rfl, rfl, rfl⟩
